import Mathlib

/-!
# Chronos chat client: a shallow embedding of the front-end scripts

The development embeds `app/frontend/js/api.js` (the transport client) and
`app/frontend/js/script.js` (formatter, bubble builder and send controller) as
pure Lean functions and proves properties of them.

Conventions of the embedding.

* A JavaScript string is a list of UTF-16 code units; it is represented by
  `List Char`, one `Char` per code unit.
* An `async` function is cut at each `await`: the part before the `await` is one
  function returning the new state and the request it issued, the part after the
  `await` is a second function taking the state found when the promise settles
  and the outcome of the promise.
* A rejected promise or a thrown exception is `Except.error`.
-/

set_option maxRecDepth 20000

namespace Chronos

/-! ## Strings -/

/-- A JavaScript string, one `Char` per UTF-16 code unit. -/
abbrev JSString := List Char

/-- ECMAScript `LineTerminator`: the code units that `.` in a regular expression
(without the `s` flag) refuses to match. -/
def isLineTerminator (c : Char) : Bool :=
  c = '\n' || c = '\r' || c = Char.ofNat 0x2028 || c = Char.ofNat 0x2029

/-- ECMAScript `WhiteSpace` and `LineTerminator` code units: what
`String.prototype.trim` strips. -/
def isTrimSpace (c : Char) : Bool :=
  c = '\t' || c = '\n' || c = Char.ofNat 0x0B || c = Char.ofNat 0x0C || c = '\r' ||
  c = ' ' || c = Char.ofNat 0xA0 || c = Char.ofNat 0x1680 ||
  (0x2000 ≤ c.toNat && c.toNat ≤ 0x200A) ||
  c = Char.ofNat 0x2028 || c = Char.ofNat 0x2029 || c = Char.ofNat 0x202F ||
  c = Char.ofNat 0x205F || c = Char.ofNat 0x3000 || c = Char.ofNat 0xFEFF

/-- The method `String.prototype.trim`. -/
def trim (s : JSString) : JSString :=
  ((s.dropWhile isTrimSpace).reverse.dropWhile isTrimSpace).reverse

/-- JavaScript truthiness of a string: `!s` is `true` exactly for the empty string. -/
def truthy (s : JSString) : Bool := !s.isEmpty

/-- The call `s.substring(0, n)`. -/
def substring0 (s : JSString) (n : Nat) : JSString := s.take n

/-- The call `text.split('\n')`: the pieces between the line feeds; never the empty list. -/
def splitLines : JSString → List JSString
  | [] => [[]]
  | c :: cs =>
    if c = '\n' then [] :: splitLines cs
    else
      match splitLines cs with
      | [] => [[c]]
      | p :: ps => (c :: p) :: ps

/-! ## The two regular expressions of `formatText`

Both have the shape `OPEN(.*?)CLOSE` with the `g` flag, where `OPEN = CLOSE` is
`**` for the bold rule and `*` for the italic rule. -/

/-- The lazy group `(.*?)` followed by the literal `close`: the shortest run of
non-line-terminators after which `close` stands. Returns the capture and the
text after `close`. -/
def lazyCapture (close : JSString) : JSString → Option (JSString × JSString)
  | [] => if close = [] then some ([], []) else none
  | c :: cs =>
    if close.isPrefixOf (c :: cs) then some ([], (c :: cs).drop close.length)
    else if isLineTerminator c then none
    else
      match lazyCapture close cs with
      | some (cap, rest) => some (c :: cap, rest)
      | none => none

/-- One match attempt of `OPEN(.*?)CLOSE` anchored at the head of `s`. -/
def matchAt (op close : JSString) (s : JSString) : Option (JSString × JSString) :=
  if op.isPrefixOf s then lazyCapture close (s.drop op.length) else none

/-- The scan of `String.prototype.replace` with a global pattern: at each position
try a match; on success emit the replacement and resume after the match, else
emit the code unit and move one position on. `fuel` bounds the number of
positions visited. -/
def replaceAux (op close : JSString) (tmpl : JSString → JSString) :
    Nat → JSString → JSString
  | 0, s => s
  | _ + 1, [] => []
  | n + 1, c :: cs =>
    match matchAt op close (c :: cs) with
    | some (cap, rest) => tmpl cap ++ replaceAux op close tmpl n rest
    | none => c :: replaceAux op close tmpl n cs

/-- The replacement `s.replace(/OPEN(.*?)CLOSE/g, tmpl($1))`; one unit of fuel per
code unit is enough, as every step consumes at least one. -/
def replaceAll (op close : JSString) (tmpl : JSString → JSString) (s : JSString) : JSString :=
  replaceAux op close tmpl s.length s

/-! ## `formatText` (script.js, lines 39-50) -/

def strongOpen : JSString :=
  "<strong class=\"font-bold\" style=\"color: var(--text-primary);\">".toList

def strongClose : JSString := "</strong>".toList

def emOpen : JSString :=
  "<em class=\"italic\" style=\"color: var(--text-secondary);\">".toList

def emClose : JSString := "</em>".toList

def pOpen : JSString := "<p class=\"mb-3 leading-relaxed last:mb-0\">".toList

def pClose : JSString := "</p>".toList

def emptyParagraph : JSString := "<div class=\"h-2\"></div>".toList

/-- The replacement template of the bold rule. -/
def strongTmpl (cap : JSString) : JSString := strongOpen ++ cap ++ strongClose

/-- The replacement template of the italic rule. -/
def emTmpl (cap : JSString) : JSString := emOpen ++ cap ++ emClose

/-- The bold rule `/\*\*(.*?)\*\*/g`. -/
def replaceBold (s : JSString) : JSString := replaceAll ['*', '*'] ['*', '*'] strongTmpl s

/-- The italic rule `/\*(.*?)\*/g`. -/
def replaceItalic (s : JSString) : JSString := replaceAll ['*'] ['*'] emTmpl s

/-- The callback of `map` in `formatText`: one paragraph. -/
def formatParagraph (paragraph : JSString) : JSString :=
  if paragraph.isEmpty then emptyParagraph
  else pOpen ++ replaceItalic (replaceBold paragraph) ++ pClose

/-- The function `formatText` of script.js. -/
def formatText (text : JSString) : JSString :=
  ((splitLines text).map formatParagraph).flatten

/-! ## Transport client (api.js) -/

/-- What a thrown JavaScript value is, as far as this program can make one. -/
inductive JSError where
  /-- The `fetch` promise rejected: the request could not be sent or no response came. -/
  | fetchFailed
  /-- An `Error` object made by `new Error(message)`. -/
  | error (message : JSString)
  /-- The promise `response.json()` rejected, or the parsed body has no fields to read. -/
  | badBody
  /-- A `TypeError`, as raised by `undefined.split`. -/
  | typeError
  deriving DecidableEq

/-- The outcome of `await fetch(...)` followed by `await response.json()`.
`body` is `none` when `response.json()` rejects. -/
inductive FetchResult (α : Type) where
  | networkError : FetchResult α
  | response (status : Nat) (body : Option α) : FetchResult α
  deriving DecidableEq

/-- The getter `response.ok`: the status is in the range 200-299. -/
def statusOk (status : Nat) : Bool := 200 ≤ status && status ≤ 299

/-- A JavaScript number as the card template observes it: its truthiness (false
for `0`, `-0` and `NaN` only) and the string that a template literal writes for
it (`Number::toString`). -/
structure JSNumber where
  isTruthy : Bool
  shown : JSString
  deriving DecidableEq

/-- The number `n` for an integer `n` from 0 to 2^53 - 1: such an integer is exactly
a double, and `Number::toString` writes its decimal digits. -/
def JSNumber.ofSafe (n : Fin 9007199254740992) : JSNumber :=
  { isTruthy := decide (n.val ≠ 0), shown := (Nat.repr n.val).toList }

/-- A citation record `{text, author?, page?}`. -/
structure Source where
  text : JSString
  author : Option JSString
  page : Option JSNumber
  deriving DecidableEq

/-- The parsed body of a `POST /chat` response. A field is `none` when it is
missing from the body (or `null`). -/
structure ChatData where
  answer : Option JSString
  sources : Option (List Source)
  deriving DecidableEq

/-- The parsed body of a `POST /chat/generate-name` response. -/
structure NameData where
  name : Option JSString
  deriving DecidableEq

/-- The object that `sendMessage` resolves with. -/
structure Answer where
  answer : Option JSString
  sources : List Source
  deriving DecidableEq

/-- The message of the error thrown on a non-2xx status. -/
def httpErrorMessage (status : Nat) : JSString :=
  "HTTP error! status: ".toList ++ (Nat.repr status).toList

/-- The method `ApiService.sendMessage` (api.js, lines 11-45), given what the
one `fetch` of the call produced. The `catch` block logs and rethrows. -/
def sendMessage (_message : JSString) (res : FetchResult ChatData) : Except JSError Answer :=
  match res with
  | .networkError => .error .fetchFailed
  | .response status body =>
    if !statusOk status then .error (.error (httpErrorMessage status))
    else
      match body with
      | none => .error .badBody
      | some data =>
        match data.sources with
        | none => .ok { answer := data.answer, sources := [] }
        | some srcs =>
          if srcs.length = 0 then .ok { answer := data.answer, sources := [] }
          else .ok { answer := data.answer, sources := srcs }

/-- The fallback name built in the `catch` block of `generateChatName`. -/
def fallbackName (message : JSString) : JSString :=
  substring0 message 40 ++ (if message.length > 40 then "...".toList else [])

/-- The `try` block of `generateChatName`. -/
def generateChatNameTry (res : FetchResult NameData) : Except JSError (Option JSString) :=
  match res with
  | .networkError => .error .fetchFailed
  | .response status body =>
    if !statusOk status then .error (.error (httpErrorMessage status))
    else
      match body with
      | none => .error .badBody
      | some data => .ok data.name

/-- The method `ApiService.generateChatName` (api.js, lines 47-68), given what
the one `fetch` of the call produced. The result is the JavaScript value the
promise resolves with (`none` for `undefined`), or the error it rejects with. -/
def generateChatName (message : JSString) (res : FetchResult NameData) :
    Except JSError (Option JSString) :=
  match generateChatNameTry res with
  | .ok name => .ok name
  | .error _ => .ok (some (fallbackName message))

/-! ## Presentation layer: `createMessageElement` (script.js, lines 53-146) -/

/-- The source section of an assistant bubble: the toggle button and the list. -/
structure SourceSection where
  /-- The text of the `.btn-text` span of the toggle button. -/
  label : JSString
  /-- Whether `sourcesList` carries the class `hidden`. -/
  listHidden : Bool
  /-- Whether the toggle button holds an `i` element, which is what
  `toggleBtn.querySelector('i')` looks for; `createMessageElement` puts one there. -/
  hasIcon : Bool
  /-- The inline `transform` of the chevron icon, in degrees; `none` before any click. -/
  iconRotation : Option Nat
  /-- The value of `sources.length` captured by the click handler. -/
  count : Nat
  /-- The `innerHTML` of each card of `sourcesList`, in order. -/
  cards : List JSString
  deriving DecidableEq

/-- The element returned by `createMessageElement`. -/
structure Bubble where
  /-- The value of `isAI`, which picks the alignment and colour classes. -/
  isAI : Bool
  /-- The `innerHTML` of `textDiv`. -/
  html : JSString
  /-- The source section appended to the bubble, if any. -/
  sourceSection : Option SourceSection
  deriving DecidableEq

/-- The separator written between the text and the author of a source, as the
bytes of script.js line 112 decode in UTF-8: U+00E2 U+20AC U+00A2. -/
def sourceSeparator : JSString := [Char.ofNat 0xE2, Char.ofNat 0x20AC, Char.ofNat 0xA2]

/-- The separator span of a card (script.js, line 112). -/
def separatorSpan : JSString :=
  "<span class=\"mx-1\">".toList ++ sourceSeparator ++ "</span>".toList

/-- The interpolation of line 112: empty unless `src.author` is truthy. -/
def authorHtml (src : Source) : JSString :=
  match src.author with
  | some a =>
    if truthy a then separatorSpan ++ "<span>".toList ++ a ++ "</span>".toList else []
  | none => []

/-- The interpolation of line 113: empty unless `src.page` is truthy. -/
def pageHtml (src : Source) : JSString :=
  match src.page with
  | some n =>
    if n.isTruthy then
      "<span class=\"opacity-75\"> (p. ".toList ++ n.shown ++ ")</span>".toList
    else []
  | none => []

/-- The template text of lines 108-111 up to the interpolation of `src.text`. -/
def cardHead : JSString :=
  ("\n                <i data-lucide=\"scroll\" width=\"12\" class=\"mt-0.5\" " ++
   "style=\"color: var(--accent);\"></i>\n                <div>\n" ++
   "                    <span class=\"font-semibold\" " ++
   "style=\"color: var(--text-primary);\">").toList

/-- The line break and indentation between two template lines of the card. -/
def cardBreak : JSString := "\n                    ".toList

/-- The template text of lines 113-115 after the last interpolation. -/
def cardTail : JSString := "\n                </div>\n            ".toList

/-- The `innerHTML` of one source card (script.js, lines 108-115). -/
def cardHtml (src : Source) : JSString :=
  cardHead ++ src.text ++ "</span>".toList ++ cardBreak ++ authorHtml src ++ cardBreak ++
    pageHtml src ++ cardTail

/-- The initial label of the toggle button, also restored on collapse. -/
def viewLabel (count : Nat) : JSString :=
  "View ".toList ++ (Nat.repr count).toList ++ " Sources".toList

/-- The call `formatText(content)` on a JavaScript value: `undefined.split`
raises a `TypeError`. -/
def formatTextJS (content : Option JSString) : Except JSError JSString :=
  match content with
  | some text => .ok (formatText text)
  | none => .error .typeError

/-- The function `createMessageElement(role, content, sources)`. `content` is
`none` when the argument is `undefined`. -/
def createMessageElement (role : JSString) (content : Option JSString)
    (sources : List Source) : Except JSError Bubble :=
  let isAI : Bool := role = "ai".toList
  match formatTextJS content with
  | .error e => .error e
  | .ok html =>
    if isAI && sources.length > 0 then
      .ok { isAI := isAI, html := html,
            sourceSection := some
              { label := viewLabel sources.length, listHidden := true, hasIcon := true,
                iconRotation := none, count := sources.length,
                cards := sources.map cardHtml } }
    else .ok { isAI := isAI, html := html, sourceSection := none }

/-- The click handler of the toggle button (script.js, lines 120-137): the section
after the click, and `error` when the handler throws. The handler changes the
class list first, then the icon, then the label; `icon.style` raises a
`TypeError` when `querySelector('i')` found no element. -/
def toggleClick (sec : SourceSection) : SourceSection × Except JSError Unit :=
  if sec.listHidden then
    let s1 : SourceSection := { sec with listHidden := false }
    if sec.hasIcon then
      ({ s1 with iconRotation := some 180, label := "Hide Sources".toList }, .ok ())
    else (s1, .error .typeError)
  else
    let s1 : SourceSection := { sec with listHidden := true }
    if sec.hasIcon then
      ({ s1 with iconRotation := some 0, label := viewLabel sec.count }, .ok ())
    else (s1, .error .typeError)

/-- The call `lucide.createIcons()` as it acts on a source section. The lucide
library, which is not part of this repository, replaces every element that
carries a `data-lucide` attribute by an `svg` element; afterwards the toggle
button holds no `i` element. The icons of the cards are replaced as well;
`cards` keeps the markup as it was assigned. -/
def createIcons (sec : SourceSection) : SourceSection := { sec with hasIcon := false }

/-- Lines 193-195 of `handleSend` as they act on the source section of the
assistant bubble: the bubble is built and appended, and `lucide.createIcons()`
runs before any click can reach the toggle. -/
def shownSection (answer : JSString) (sources : List Source) : Option SourceSection :=
  match createMessageElement "ai".toList (some answer) sources with
  | .ok aiMsg => aiMsg.sourceSection.map createIcons
  | .error _ => none

/-! ## Theme (script.js, lines 277-298) -/

/-- The theme as the page holds it. -/
structure ThemeState where
  /-- The attribute `data-theme` of the document element; `none` when unset. -/
  dataTheme : Option JSString
  /-- The item `theme` of `localStorage`; `none` when absent. -/
  stored : Option JSString
  /-- The attribute `data-lucide` of the `i` element of the theme button; `none`
  when the button holds no such element. -/
  icon : Option JSString
  deriving DecidableEq

/-- The function `updateThemeIcon`: nothing happens when the button holds no `i`
element. -/
def updateThemeIcon (t : ThemeState) (theme : JSString) : ThemeState :=
  match t.icon with
  | some _ =>
    { t with icon := some (if theme = "light".toList then "moon".toList else "sun".toList) }
  | none => t

/-- The function `initializeTheme`: the stored item, or `light` when it is absent
or empty. -/
def initializeTheme (t : ThemeState) : ThemeState :=
  let savedTheme : JSString :=
    match t.stored with
    | some v => if truthy v then v else "light".toList
    | none => "light".toList
  updateThemeIcon { t with dataTheme := some savedTheme } savedTheme

/-- The function `toggleTheme`. -/
def toggleTheme (t : ThemeState) : ThemeState :=
  let newTheme : JSString :=
    if t.dataTheme = some "light".toList then "dark".toList else "light".toList
  updateThemeIcon { t with dataTheme := some newTheme, stored := some newTheme } newTheme

/-! ## Interaction controller (script.js, lines 23-26 and 149-334) -/

/-- What the `current-session` container of the sidebar shows. -/
inductive SessionView where
  | noActiveSession
  | generating
  | named (chatName : Option JSString)
  | failed
  deriving DecidableEq

/-- The module variables of script.js and the parts of the document they drive. -/
structure Controller where
  isTyping : Bool
  hasMessages : Bool
  /-- The variable `currentChatName`; `none` is `null` (or `undefined`). -/
  currentChatName : Option JSString
  isGeneratingName : Bool
  /-- The children of `els.messagesList`, oldest first. -/
  messagesList : List Bubble
  /-- Whether `els.messagesList` carries the class `hidden`. -/
  messagesHidden : Bool
  /-- Whether `els.welcomeScreen` carries the class `hidden`. -/
  welcomeHidden : Bool
  /-- Whether `els.thinkingIndicator` carries the class `hidden` (and not `flex`). -/
  thinkingHidden : Bool
  thinkingText : JSString
  /-- The value of `els.input`. -/
  inputValue : JSString
  /-- The property `els.sendBtn.disabled`. -/
  sendDisabled : Bool
  session : SessionView
  sidebarOpen : Bool
  deriving DecidableEq

/-- The controller when the script has just been loaded: the initial values of
lines 23-26 over the untouched document. -/
def pageLoad : Controller :=
  { isTyping := false, hasMessages := false, currentChatName := none,
    isGeneratingName := false, messagesList := [], messagesHidden := true,
    welcomeHidden := false, thinkingHidden := true, thinkingText := [],
    inputValue := [], sendDisabled := true, session := .noActiveSession,
    sidebarOpen := false }

/-- A call made to `window.apiService`. -/
inductive ApiCall where
  | sendMessage (message : JSString)
  | generateChatName (message : JSString)
  deriving DecidableEq

/-- The locals of a `handleSend` call suspended at its `await`. -/
structure PendingSend where
  text : JSString
  isFirstMessage : Bool
  deriving DecidableEq

/-- The function `toggleSendButton`. -/
def toggleSendButton (s : Controller) : Controller :=
  if truthy (trim s.inputValue) && !s.isTyping then { s with sendDisabled := false }
  else { s with sendDisabled := true }

/-- The function `closeSidebar`. -/
def closeSidebar (s : Controller) : Controller := { s with sidebarOpen := false }

/-- The text of the bubble appended when the exchange fails. -/
def apologyText : JSString :=
  "Apologies, I cannot access the archives right now. Please try again later.".toList

/-- Appending an element to `els.messagesList`. -/
def appendMessage (s : Controller) (b : Bubble) : Controller :=
  { s with messagesList := s.messagesList ++ [b] }

/-- The function `handleSend` up to its `await` (script.js, lines 149-186): the
new controller, the call issued (if any) and the locals kept for the
continuation. The user bubble is built from a string, so `createMessageElement`
cannot throw there; an `error` is kept for the model to be total. -/
def handleSendStart (s : Controller) (text : JSString) :
    Controller × Option ApiCall × Option PendingSend :=
  if !truthy (trim text) || s.isTyping then (s, none, none)
  else
    let isFirstMessage := !s.hasMessages
    let s1 : Controller :=
      if !s.hasMessages then
        { s with hasMessages := true, welcomeHidden := true, messagesHidden := false }
      else s
    match createMessageElement "user".toList (some text) [] with
    | .error _ => (s1, none, none)
    | .ok userMsg =>
      let s2 := appendMessage s1 userMsg
      let s3 := toggleSendButton { s2 with inputValue := [] }
      let s4 : Controller :=
        { s3 with isTyping := true, thinkingHidden := false,
                  thinkingText := "Consulting archives...".toList }
      (s4, some (.sendMessage text), some { text := text, isFirstMessage := isFirstMessage })

/-- The callbacks of the two `setTimeout` calls of `handleSend` (lines 181-182). -/
def thinkingStage (s : Controller) (late : Bool) : Controller :=
  if s.isTyping then
    { s with thinkingText :=
        if late then "Formatting response...".toList
        else "Analyzing historical contexts...".toList }
  else s

/-- The function `generateAndDisplayChatName` up to its `await` (lines 216-231). -/
def generateAndDisplayChatNameStart (s : Controller) : Controller :=
  { s with isGeneratingName := true, session := .generating }

/-- The function `generateAndDisplayChatName` after its `await` (lines 231-252),
given what `generateChatName` settled with. -/
def generateAndDisplayChatNameResume (s : Controller)
    (r : Except JSError (Option JSString)) : Controller :=
  match r with
  | .ok chatName =>
    { s with currentChatName := chatName, session := .named chatName,
             isGeneratingName := false }
  | .error _ => { s with session := .failed, isGeneratingName := false }

/-- The `try` block of `handleSend` after the `await` (lines 186-201): the state
reached, and either the error thrown or the API call fired in the background. -/
def handleSendTry (s : Controller) (p : PendingSend) (r : Except JSError Answer) :
    Controller × Except JSError (Option ApiCall) :=
  match r with
  | .error e => (s, .error e)
  | .ok response =>
    let s1 : Controller := { s with isTyping := false, thinkingHidden := true }
    match createMessageElement "ai".toList response.answer response.sources with
    | .error e => (s1, .error e)
    | .ok aiMsg =>
      let s2 := appendMessage s1 aiMsg
      if p.isFirstMessage && !s2.isGeneratingName then
        (generateAndDisplayChatNameStart s2, .ok (some (.generateChatName p.text)))
      else (s2, .ok none)

/-- The `catch` block of `handleSend` (lines 202-212). -/
def handleSendCatch (s : Controller) (_error : JSError) :
    Controller × Except JSError (Option ApiCall) :=
  let s1 : Controller := { s with isTyping := false, thinkingHidden := true }
  match createMessageElement "ai".toList (some apologyText) [] with
  | .error e => (s1, .error e)
  | .ok errorMsg => (appendMessage s1 errorMsg, .ok none)

/-- The function `handleSend` after its `await` (lines 184-213): `s` is the
controller found when `sendMessage` settles with `r`. The second component is
`error e` when `handleSend` itself rejects with `e`. -/
def handleSendResume (s : Controller) (p : PendingSend) (r : Except JSError Answer) :
    Controller × Except JSError (Option ApiCall) :=
  match handleSendTry s p r with
  | (s1, .error e) => handleSendCatch s1 e
  | (s1, .ok call) => (s1, .ok call)

/-- The function `resetChat` (lines 256-275); `innerWidth` is `window.innerWidth`. -/
def resetChat (s : Controller) (innerWidth : Nat) : Controller :=
  let s1 : Controller :=
    { s with hasMessages := false, currentChatName := none, isGeneratingName := false,
             messagesList := [], messagesHidden := true, welcomeHidden := false,
             inputValue := [] }
  let s2 := toggleSendButton s1
  let s3 : Controller := { s2 with session := .noActiveSession }
  if innerWidth < 768 then closeSidebar s3 else s3

/-! ## Runs of the controller -/

/-- The controller together with the promises that are still pending. -/
structure World where
  ctl : Controller
  /-- The `handleSend` calls suspended at their `await`, oldest first. -/
  pendingSends : List PendingSend
  /-- The `generateAndDisplayChatName` calls suspended at their `await`. -/
  pendingNames : List JSString
  /-- Every call made to `window.apiService` so far, oldest first. -/
  calls : List ApiCall
  deriving DecidableEq

/-- What can happen between two resets. -/
inductive Event where
  /-- A send action (button, Enter key or suggestion chip) with this text. -/
  | send (text : JSString)
  /-- The oldest pending `POST /chat` settles. -/
  | sendSettled (res : FetchResult ChatData)
  /-- The oldest pending `POST /chat/generate-name` settles. -/
  | nameSettled (res : FetchResult NameData)
  /-- One of the two thinking-indicator timers fires. -/
  | timer (late : Bool)
  deriving DecidableEq

/-- The calls logged for an optional API call. -/
def callLog : Option ApiCall → List ApiCall
  | some c => [c]
  | none => []

/-- The name requests started by an optional API call. -/
def nameRequests : Option ApiCall → List JSString
  | some (.generateChatName m) => [m]
  | _ => []

/-- One event of the event loop. -/
def step (w : World) : Event → World
  | .send text =>
    match handleSendStart w.ctl text with
    | (c, call, some p) =>
      { w with ctl := c, pendingSends := w.pendingSends ++ [p], calls := w.calls ++ callLog call }
    | (c, call, none) => { w with ctl := c, calls := w.calls ++ callLog call }
  | .sendSettled res =>
    match w.pendingSends with
    | [] => w
    | p :: rest =>
      match handleSendResume w.ctl p (sendMessage p.text res) with
      | (c, .ok call) =>
        { ctl := c, pendingSends := rest, pendingNames := w.pendingNames ++ nameRequests call,
          calls := w.calls ++ callLog call }
      | (c, .error _) => { w with ctl := c, pendingSends := rest }
  | .nameSettled res =>
    match w.pendingNames with
    | [] => w
    | m :: rest =>
      { w with ctl := generateAndDisplayChatNameResume w.ctl (generateChatName m res),
               pendingNames := rest }
  | .timer late => { w with ctl := thinkingStage w.ctl late }

/-- A run: the events in order. -/
def run (w : World) (evs : List Event) : World := evs.foldl step w

/-- The world with nothing pending and no call made yet. -/
def quiet (c : Controller) : World :=
  { ctl := c, pendingSends := [], pendingNames := [], calls := [] }

/-- The `generateChatName` calls among the calls made. -/
def nameCalls (w : World) : List JSString :=
  w.calls.filterMap fun c =>
    match c with
    | .generateChatName m => some m
    | .sendMessage _ => none

/-! ## Vocabulary of the properties -/

/-- A text that is empty or made of white space only. -/
def blank (text : JSString) : Prop := ∀ c ∈ text, isTrimSpace c = true

instance (text : JSString) : Decidable (blank text) := by
  unfold blank
  infer_instance

/-- A status code outside the success range 200-299. -/
def nonSuccess (status : Nat) : Prop := ¬ (200 ≤ status ∧ status ≤ 299)

instance (status : Nat) : Decidable (nonSuccess status) := by
  unfold nonSuccess
  infer_instance

/-- The bubble that shows the static apology. -/
def apologyBubble : Bubble :=
  { isAI := true, html := formatText apologyText, sourceSection := none }

/-- The bubble of a user message. -/
def userBubble (text : JSString) : Bubble :=
  { isAI := false, html := formatText text, sourceSection := none }

/-- Whether a settled `sendMessage` carries an answer string, so that the `try`
block of `handleSend` renders it and runs to its end. -/
def answered (r : Except JSError Answer) : Bool :=
  match r with
  | .ok ⟨some _, _⟩ => true
  | _ => false

/-- Whether the exchange for `text` succeeds when its request ends as `res`. -/
def exchangeSucceeds (text : JSString) (res : FetchResult ChatData) : Bool :=
  answered (sendMessage text res)

/-- The outcome of the first request that settles among the events. -/
def firstSettled : List Event → Option (FetchResult ChatData)
  | [] => none
  | .sendSettled res :: _ => some res
  | _ :: evs => firstSettled evs

/-- The first exchange of a run that starts with no response awaited: the text of
the first non-blank send action and the outcome of the first request that
settles after it; `none` while that request has not settled. -/
def firstExchange : List Event → Option (JSString × FetchResult ChatData)
  | [] => none
  | .send text :: evs =>
    if blank text then firstExchange evs
    else (firstSettled evs).map fun res => (text, res)
  | _ :: evs => firstExchange evs

/-- The name-generation calls that the first exchange of a run accounts for. -/
def expectedNameCalls (first : Option (JSString × FetchResult ChatData)) : List JSString :=
  match first with
  | some (text, res) => if exchangeSucceeds text res then [text] else []
  | none => []

/-- The escaping that would neutralise markup: `&`, `<` and `>` written as character
references. Nothing in script.js computes it; it is here to state what an
escaped rendering would be. -/
def escapeHtmlSpec (s : JSString) : JSString :=
  s.flatMap fun c =>
    if c = '&' then "&amp;".toList
    else if c = '<' then "&lt;".toList
    else if c = '>' then "&gt;".toList
    else [c]

/-- The preprocessing of the input stream by the HTML parser: a carriage return
followed by a line feed becomes one line feed, and any other carriage return
becomes a line feed. The flag tells whether the code unit before was a
carriage return, whose line feed is already written. -/
def normalizeAux : Bool → JSString → JSString
  | _, [] => []
  | afterCR, c :: cs =>
    if c = '\r' then '\n' :: normalizeAux true cs
    else if c = '\n' && afterCR then normalizeAux false cs
    else c :: normalizeAux false cs

/-- The preprocessing from the start of the input. -/
def normalizeNewlines (s : JSString) : JSString := normalizeAux false s

/-- The text nodes that the HTML parser makes of a preprocessed fragment in which
every `<` opens a tag, no attribute value holds `>` and there is no character
reference: the text outside the tags, without the code unit U+0000, which the
parser drops. The flag tells whether the reader is inside a tag. -/
def textContentAux : Bool → JSString → JSString
  | _, [] => []
  | false, c :: cs =>
    if c = '<' then textContentAux true cs
    else if c = Char.ofNat 0 then textContentAux false cs
    else c :: textContentAux false cs
  | true, c :: cs => if c = '>' then textContentAux false cs else textContentAux true cs

/-- Whether the reader of `textContentAux` is inside a tag after `s`. -/
def tagState : Bool → JSString → Bool
  | b, [] => b
  | false, c :: cs => if c = '<' then tagState true cs else tagState false cs
  | true, c :: cs => if c = '>' then tagState false cs else tagState true cs

/-- The text content of an element whose `innerHTML` was set to `html`, for a
fragment as described at `textContentAux`. -/
def textContent (html : JSString) : JSString := textContentAux false (normalizeNewlines html)

/-- A string that the HTML parser turns into one text node equal to it: no `<`, no
`&`, no carriage return and no U+0000. -/
def plainText (s : JSString) : Prop :=
  ∀ c ∈ s, c ≠ '<' ∧ c ≠ '&' ∧ c ≠ '\r' ∧ c ≠ Char.ofNat 0

instance (s : JSString) : Decidable (plainText s) := by
  unfold plainText
  infer_instance

/-- The text shown for the author of a source: nothing unless `author` is a
non-empty string. -/
def authorText (src : Source) : JSString :=
  match src.author with
  | some a => if a ≠ [] then sourceSeparator ++ a else []
  | none => []

/-- The text shown for the page of a source: nothing unless `page` is a truthy
number. -/
def pageText (src : Source) : JSString :=
  match src.page with
  | some n => if n.isTruthy then " (p. ".toList ++ n.shown ++ ")".toList else []
  | none => []

/-! ## Requests, repeated clicks and error messages -/

/-- The constant `CONFIG.apiBaseUrl` of config.js. -/
def apiBaseUrl : JSString := "http://localhost:8000/api/v1".toList

/-- A `POST` request made through `fetch`: the URL and the one entry of the JSON
body. -/
structure FetchRequest where
  url : JSString
  key : JSString
  value : JSString
  deriving DecidableEq

/-- The request of `sendMessage` (api.js, lines 13-19). -/
def chatRequest (message : JSString) : FetchRequest :=
  { url := apiBaseUrl ++ "/chat".toList, key := "query".toList, value := message }

/-- The method `sendMessage` run against a network that answers the request
number `i` of the call by `net i`: the outcome of the call and the requests it
made, in order. The body of the method holds a single `fetch` and no loop. -/
def sendMessageRun (message : JSString) (net : Nat → FetchResult ChatData) :
    Except JSError Answer × List FetchRequest :=
  (sendMessage message (net 0), [chatRequest message])

/-- The value of a decimal digit. -/
def digitValue (c : Char) : Nat := c.toNat - '0'.toNat

/-- The number written by a string of decimal digits. -/
def readDecimal (ds : JSString) : Nat :=
  ds.foldl (fun acc c => acc * 10 + digitValue c) 0

/-- The status code that an error message of the form `HTTP error! status: N`
carries. -/
def statusOfMessage (msg : JSString) : Option Nat :=
  if "HTTP error! status: ".toList.isPrefixOf msg then
    some (readDecimal (msg.drop "HTTP error! status: ".toList.length))
  else none

/-- The section after `k` clicks on its toggle button, whether the handler ran to
its end or threw. -/
def clickTimes : Nat → SourceSection → SourceSection
  | 0, sec => sec
  | k + 1, sec => (toggleClick (clickTimes k sec)).1

/-! ## Lemmas on the regular-expression scan -/

theorem lazyCapture_eq (close : JSString) :
    ∀ (s cap rest : JSString), lazyCapture close s = some (cap, rest) →
      s = cap ++ close ++ rest := by
  intro s
  induction s with
  | nil =>
    intro cap rest h
    by_cases hc : close = []
    · simp [lazyCapture, hc] at h
      obtain ⟨h1, h2⟩ := h
      subst h1 h2
      simp [hc]
    · simp [lazyCapture, hc] at h
  | cons c cs ih =>
    intro cap rest h
    unfold lazyCapture at h
    by_cases hp : close.isPrefixOf (c :: cs) = true
    · rw [if_pos hp] at h
      simp only [Option.some.injEq, Prod.mk.injEq] at h
      have hpre : close <+: c :: cs := List.isPrefixOf_iff_prefix.mp hp
      have := List.prefix_iff_eq_append.mp hpre
      rw [← h.1, ← h.2]
      simpa using this.symm
    · rw [if_neg hp] at h
      by_cases ht : isLineTerminator c = true
      · rw [if_pos ht] at h
        exact absurd h (by simp)
      · rw [if_neg ht] at h
        cases hrec : lazyCapture close cs with
        | none => rw [hrec] at h; exact absurd h (by simp)
        | some pr =>
          obtain ⟨cap1, rest1⟩ := pr
          rw [hrec] at h
          simp only [Option.some.injEq, Prod.mk.injEq] at h
          have := ih cap1 rest1 hrec
          rw [← h.1, ← h.2, this]
          simp

theorem matchAt_eq (op close s cap rest : JSString)
    (h : matchAt op close s = some (cap, rest)) : s = op ++ cap ++ close ++ rest := by
  unfold matchAt at h
  by_cases hp : op.isPrefixOf s = true
  · rw [if_pos hp] at h
    have h1 := lazyCapture_eq close _ _ _ h
    have hpre : op <+: s := List.isPrefixOf_iff_prefix.mp hp
    have h2 := List.prefix_iff_eq_append.mp hpre
    rw [← h2, h1]
    simp
  · rw [if_neg hp] at h
    exact absurd h (by simp)

theorem matchAt_rest_lt (op close s cap rest : JSString) (hop : op ≠ [])
    (h : matchAt op close s = some (cap, rest)) : rest.length < s.length := by
  have := matchAt_eq op close s cap rest h
  have hpos : 0 < op.length := List.length_pos.mpr hop
  rw [this]
  simp only [List.length_append]
  omega

theorem replaceAux_fuel (op close : JSString) (tmpl : JSString → JSString) (hop : op ≠ []) :
    ∀ (n m : Nat) (s : JSString), s.length ≤ n → s.length ≤ m →
      replaceAux op close tmpl n s = replaceAux op close tmpl m s := by
  intro n
  induction n with
  | zero =>
    intro m s hn _
    have hs : s = [] := List.length_eq_zero.mp (Nat.le_zero.mp hn)
    subst hs
    cases m <;> simp [replaceAux]
  | succ n ih =>
    intro m s hn hm
    cases s with
    | nil => cases m <;> simp [replaceAux]
    | cons c cs =>
      cases m with
      | zero => simp at hm
      | succ m =>
        simp only [replaceAux]
        cases hmt : matchAt op close (c :: cs) with
        | none =>
          simp only
          rw [ih m cs (by simpa using hn) (by simpa using hm)]
        | some pr =>
          obtain ⟨cap, rest⟩ := pr
          simp only
          have hlt := matchAt_rest_lt op close _ cap rest hop hmt
          rw [ih m rest (by simp at hn hlt; omega) (by simp at hm hlt; omega)]

theorem replaceAll_nil (op close : JSString) (tmpl : JSString → JSString) :
    replaceAll op close tmpl [] = [] := by
  simp [replaceAll, replaceAux]

theorem replaceAll_cons_none (op close : JSString) (tmpl : JSString → JSString)
    (c : Char) (cs : JSString) (h : matchAt op close (c :: cs) = none) :
    replaceAll op close tmpl (c :: cs) = c :: replaceAll op close tmpl cs := by
  simp only [replaceAll, List.length_cons, replaceAux, h]

theorem replaceAll_match (op close : JSString) (tmpl : JSString → JSString) (hop : op ≠ [])
    (s cap rest : JSString) (h : matchAt op close s = some (cap, rest)) :
    replaceAll op close tmpl s = tmpl cap ++ replaceAll op close tmpl rest := by
  have hlt := matchAt_rest_lt op close s cap rest hop h
  cases s with
  | nil => simp at hlt
  | cons c cs =>
    simp only [replaceAll, List.length_cons, replaceAux, h]
    rw [replaceAux_fuel op close tmpl hop cs.length rest.length rest
      (by simp at hlt; omega) (le_refl _)]

theorem lazyCapture_found (d : Char) (ds x rest : JSString)
    (hx : ∀ c ∈ x, c ≠ d ∧ isLineTerminator c = false) :
    lazyCapture (d :: ds) (x ++ (d :: (ds ++ rest))) = some (x, rest) := by
  induction x with
  | nil =>
    simp only [List.nil_append]
    unfold lazyCapture
    have hp : (d :: ds).isPrefixOf (d :: (ds ++ rest)) = true :=
      List.isPrefixOf_iff_prefix.mpr ⟨rest, by simp⟩
    rw [if_pos hp]
    simp
  | cons c x ih =>
    have hc := hx c (List.mem_cons_self c x)
    have hx1 : ∀ a ∈ x, a ≠ d ∧ isLineTerminator a = false :=
      fun a ha => hx a (List.mem_cons_of_mem c ha)
    simp only [List.cons_append]
    unfold lazyCapture
    have hp : ¬ (d :: ds).isPrefixOf (c :: (x ++ (d :: (ds ++ rest)))) = true := by
      intro hp
      have := List.isPrefixOf_iff_prefix.mp hp
      obtain ⟨t, ht⟩ := this
      simp only [List.cons_append, List.cons.injEq] at ht
      exact hc.1 ht.1.symm
    rw [if_neg hp]
    have ht : ¬ isLineTerminator c = true := by simp [hc.2]
    rw [if_neg ht, ih hx1]

theorem matchAt_cons_ne (d : Char) (ds close : JSString) (c : Char) (cs : JSString)
    (h : c ≠ d) : matchAt (d :: ds) close (c :: cs) = none := by
  unfold matchAt
  have hp : ¬ (d :: ds).isPrefixOf (c :: cs) = true := by
    intro hp
    obtain ⟨t, ht⟩ := List.isPrefixOf_iff_prefix.mp hp
    simp only [List.cons_append, List.cons.injEq] at ht
    exact h ht.1.symm
  rw [if_neg hp]

theorem matchAt_found (d e : Char) (ds es x rest : JSString)
    (hx : ∀ c ∈ x, c ≠ e ∧ isLineTerminator c = false) :
    matchAt (d :: ds) (e :: es) ((d :: ds) ++ (x ++ (e :: (es ++ rest)))) = some (x, rest) := by
  unfold matchAt
  have hp : (d :: ds).isPrefixOf ((d :: ds) ++ (x ++ (e :: (es ++ rest)))) = true :=
    List.isPrefixOf_iff_prefix.mpr ⟨x ++ (e :: (es ++ rest)), rfl⟩
  rw [if_pos hp, List.drop_left]
  exact lazyCapture_found e es x rest hx

theorem replaceAll_skip (d : Char) (ds close : JSString) (tmpl : JSString → JSString)
    (pre s : JSString) (hpre : ∀ c ∈ pre, c ≠ d) :
    replaceAll (d :: ds) close tmpl (pre ++ s) = pre ++ replaceAll (d :: ds) close tmpl s := by
  induction pre with
  | nil => simp
  | cons c pre ih =>
    have hc := hpre c (List.mem_cons_self c pre)
    simp only [List.cons_append]
    rw [replaceAll_cons_none _ _ _ _ _ (matchAt_cons_ne d ds close c (pre ++ s) hc),
      ih (fun a ha => hpre a (List.mem_cons_of_mem c ha))]

theorem replaceAll_found (d e : Char) (ds es : JSString) (tmpl : JSString → JSString)
    (x rest : JSString) (hx : ∀ c ∈ x, c ≠ e ∧ isLineTerminator c = false) :
    replaceAll (d :: ds) (e :: es) tmpl ((d :: ds) ++ (x ++ (e :: (es ++ rest))))
      = tmpl x ++ replaceAll (d :: ds) (e :: es) tmpl rest :=
  replaceAll_match _ _ _ (by simp) _ _ _ (matchAt_found d e ds es x rest hx)

theorem replaceAll_few (op close : JSString) (tmpl : JSString → JSString)
    (d : Char) (s : JSString) (h : s.count d < op.count d + close.count d) :
    replaceAll op close tmpl s = s := by
  induction s with
  | nil => exact replaceAll_nil op close tmpl
  | cons c cs ih =>
    have hnone : matchAt op close (c :: cs) = none := by
      cases hm : matchAt op close (c :: cs) with
      | none => rfl
      | some pr =>
        obtain ⟨cap, rest⟩ := pr
        have := matchAt_eq op close _ cap rest hm
        rw [this] at h
        simp only [List.count_append] at h
        omega
    rw [replaceAll_cons_none _ _ _ _ _ hnone, ih]
    have := List.count_le_count_cons (a := d) (b := c) (l := cs)
    omega

theorem splitLines_single (s : JSString) (h : ∀ c ∈ s, c ≠ '\n') : splitLines s = [s] := by
  induction s with
  | nil => rfl
  | cons c cs ih =>
    have hc := h c (List.mem_cons_self c cs)
    have := ih (fun a ha => h a (List.mem_cons_of_mem c ha))
    simp [splitLines, hc, this]

theorem formatText_single (s : JSString) (h : ∀ c ∈ s, c ≠ '\n') (hne : s ≠ []) :
    formatText s = pOpen ++ replaceItalic (replaceBold s) ++ pClose := by
  unfold formatText
  rw [splitLines_single s h]
  cases s with
  | nil => exact absurd rfl hne
  | cons c cs => simp [formatParagraph]

theorem count_star_eq_zero (s : JSString) (h : ∀ c ∈ s, c ≠ '*') : s.count '*' = 0 :=
  List.count_eq_zero.mpr (fun hmem => h '*' hmem rfl)

theorem strongOpen_star : ∀ c ∈ strongOpen, c ≠ '*' := by decide

theorem strongClose_star : ∀ c ∈ strongClose, c ≠ '*' := by decide

theorem replaceBold_one (pre x tail : JSString) (hpre : ∀ c ∈ pre, c ≠ '*')
    (hx : ∀ c ∈ x, c ≠ '*' ∧ isLineTerminator c = false) (htail : tail.count '*' < 4) :
    replaceBold (pre ++ (['*', '*'] ++ (x ++ ('*' :: (['*'] ++ tail)))))
      = pre ++ (strongTmpl x ++ tail) := by
  unfold replaceBold
  rw [replaceAll_skip '*' ['*'] ['*', '*'] strongTmpl pre _ hpre,
    replaceAll_found '*' '*' ['*'] ['*'] strongTmpl x tail hx,
    replaceAll_few ['*', '*'] ['*', '*'] strongTmpl '*' tail (by simpa using htail)]

theorem replaceItalic_one (pre y tail : JSString) (hpre : ∀ c ∈ pre, c ≠ '*')
    (hy : ∀ c ∈ y, c ≠ '*' ∧ isLineTerminator c = false) (htail : tail.count '*' < 2) :
    replaceItalic (pre ++ (['*'] ++ (y ++ ('*' :: ([] ++ tail)))))
      = pre ++ (emTmpl y ++ tail) := by
  unfold replaceItalic
  rw [replaceAll_skip '*' [] ['*'] emTmpl pre _ hpre,
    replaceAll_found '*' '*' [] [] emTmpl y tail hy,
    replaceAll_few ['*'] ['*'] emTmpl '*' tail (by simpa using htail)]

/-! ## Lemmas on the controller -/

theorem trim_eq_nil_iff (s : JSString) : trim s = [] ↔ blank s := by
  unfold trim blank
  rw [List.reverse_eq_nil_iff, List.dropWhile_eq_nil_iff]
  constructor
  · intro h
    by_cases hd : s.dropWhile isTrimSpace = []
    · exact List.dropWhile_eq_nil_iff.mp hd
    · exfalso
      have h1 := List.head_dropWhile_not isTrimSpace s hd
      have h2 := h _ (List.mem_reverse.mpr (List.head_mem hd))
      rw [h2] at h1
      exact absurd h1 (by simp)
  · intro h
    have : s.dropWhile isTrimSpace = [] := List.dropWhile_eq_nil_iff.mpr h
    rw [this]
    simp

theorem truthy_trim (s : JSString) : truthy (trim s) = true ↔ ¬ blank s := by
  rw [← trim_eq_nil_iff]
  unfold truthy
  cases trim s <;> simp

theorem createMessageElement_user (text : JSString) (sources : List Source) :
    createMessageElement "user".toList (some text) sources = .ok (userBubble text) := by
  have h : ("user".toList = "ai".toList) = False := by decide
  simp [createMessageElement, formatTextJS, userBubble, h]

theorem createMessageElement_apology :
    createMessageElement "ai".toList (some apologyText) [] = .ok apologyBubble := by
  simp [createMessageElement, formatTextJS, apologyBubble]

theorem handleSendStart_noop (s : Controller) (text : JSString)
    (h : blank text ∨ s.isTyping = true) : handleSendStart s text = (s, none, none) := by
  unfold handleSendStart
  have hg : (!truthy (trim text) || s.isTyping) = true := by
    rcases h with h | h
    · have : truthy (trim text) = false := by
        cases ht : truthy (trim text) with
        | false => rfl
        | true => exact absurd h ((truthy_trim text).mp ht)
      simp [this]
    · simp [h]
  rw [if_pos hg]

theorem handleSendStart_accept (s : Controller) (text : JSString)
    (hb : ¬ blank text) (ht : s.isTyping = false) :
    handleSendStart s text =
      ({ (toggleSendButton
            { (appendMessage
                (if !s.hasMessages then
                  { s with hasMessages := true, welcomeHidden := true, messagesHidden := false }
                 else s) (userBubble text)) with inputValue := [] }) with
          isTyping := true, thinkingHidden := false,
          thinkingText := "Consulting archives...".toList },
       some (.sendMessage text), some { text := text, isFirstMessage := !s.hasMessages }) := by
  unfold handleSendStart
  have hg : ¬ (!truthy (trim text) || s.isTyping) = true := by
    simp [(truthy_trim text).mpr hb, ht]
  rw [if_neg hg, createMessageElement_user]

theorem toggleSendButton_fields (s : Controller) :
    (toggleSendButton s).isTyping = s.isTyping ∧
    (toggleSendButton s).hasMessages = s.hasMessages ∧
    (toggleSendButton s).isGeneratingName = s.isGeneratingName ∧
    (toggleSendButton s).currentChatName = s.currentChatName ∧
    (toggleSendButton s).messagesList = s.messagesList ∧
    (toggleSendButton s).thinkingHidden = s.thinkingHidden := by
  unfold toggleSendButton
  split <;> simp

theorem handleSendCatch_eq (s : Controller) (e : JSError) :
    handleSendCatch s e =
      ({ s with isTyping := false, thinkingHidden := true,
                messagesList := s.messagesList ++ [apologyBubble] }, .ok none) := by
  unfold handleSendCatch
  rw [createMessageElement_apology]
  rfl

theorem createMessageElement_some (role text : JSString) (sources : List Source) :
    ∃ b, createMessageElement role (some text) sources = .ok b := by
  unfold createMessageElement formatTextJS
  simp only
  split <;> exact ⟨_, rfl⟩

theorem handleSendResume_cases (s : Controller) (p : PendingSend) (r : Except JSError Answer) :
    ∃ reply call,
      handleSendResume s p r =
        ({ (if call.isSome then generateAndDisplayChatNameStart s else s) with
            isTyping := false, thinkingHidden := true,
            messagesList := s.messagesList ++ [reply] }, .ok call) ∧
      (call = if (p.isFirstMessage && !s.isGeneratingName && answered r) = true
              then some (.generateChatName p.text) else none) ∧
      (∀ a srcs, r = .ok ⟨some a, srcs⟩ →
        createMessageElement "ai".toList (some a) srcs = .ok reply) ∧
      ((∀ a srcs, r ≠ .ok ⟨some a, srcs⟩) → reply = apologyBubble) := by
  cases r with
  | error e =>
    refine ⟨apologyBubble, none, ?_, ?_, ?_, ?_⟩
    · simp only [handleSendResume, handleSendTry, handleSendCatch_eq]
      rfl
    · simp [answered]
    · intro a srcs h; exact absurd h (by simp)
    · intro _; rfl
  | ok response =>
    obtain ⟨answer, sources⟩ := response
    cases answer with
    | none =>
      refine ⟨apologyBubble, none, ?_, ?_, ?_, ?_⟩
      · have : createMessageElement "ai".toList none sources = .error .typeError := rfl
        simp only [handleSendResume, handleSendTry, this, handleSendCatch_eq]
        rfl
      · simp [answered]
      · intro a srcs h; exact absurd h (by simp)
      · intro _; rfl
    | some a =>
      obtain ⟨reply, hb⟩ := createMessageElement_some "ai".toList a sources
      by_cases hfirst : (p.isFirstMessage && !s.isGeneratingName) = true
      · refine ⟨reply, some (.generateChatName p.text), ?_, ?_, ?_, ?_⟩
        · simp only [handleSendResume, handleSendTry, hb, appendMessage, hfirst, if_true,
            Option.isSome_some, generateAndDisplayChatNameStart]
        · simp [hfirst, answered]
        · intro a1 srcs1 h
          simp only [Except.ok.injEq, Answer.mk.injEq, Option.some.injEq] at h
          rw [← h.1, ← h.2, hb]
        · intro h; exact absurd rfl (h a sources)
      · refine ⟨reply, none, ?_, ?_, ?_, ?_⟩
        · simp only [handleSendResume, handleSendTry, hb, appendMessage, hfirst]
          simp
        · simp [hfirst, answered]
        · intro a1 srcs1 h
          simp only [Except.ok.injEq, Answer.mk.injEq, Option.some.injEq] at h
          rw [← h.1, ← h.2, hb]
        · intro h; exact absurd rfl (h a sources)

theorem createMessageElement_ai_isAI (content : Option JSString) (sources : List Source)
    (b : Bubble) (h : createMessageElement "ai".toList content sources = .ok b) :
    b.isAI = true := by
  unfold createMessageElement at h
  cases content with
  | none => simp [formatTextJS] at h
  | some c =>
    simp only [formatTextJS] at h
    split at h <;>
    · simp only [Except.ok.injEq] at h
      rw [← h]
      simp

theorem handleSendStart_messages (s : Controller) (text : JSString)
    (hb : ¬ blank text) (ht : s.isTyping = false) :
    (handleSendStart s text).1.messagesList = s.messagesList ++ [userBubble text] ∧
    (handleSendStart s text).1.isTyping = true ∧
    (handleSendStart s text).1.hasMessages = true ∧
    (handleSendStart s text).1.isGeneratingName = s.isGeneratingName := by
  rw [handleSendStart_accept s text hb ht]
  simp only [(toggleSendButton_fields _).2.2.2.2.1, (toggleSendButton_fields _).2.1,
    (toggleSendButton_fields _).2.2.1, appendMessage]
  cases h : s.hasMessages <;> simp [h]

theorem statusOk_of_nonSuccess (status : Nat) (h : nonSuccess status) :
    statusOk status = false := by
  unfold nonSuccess at h
  unfold statusOk
  rw [Bool.and_eq_false_iff]
  simp only [decide_eq_false_iff_not]
  omega

theorem resetChat_fields (s : Controller) (innerWidth : Nat) :
    (resetChat s innerWidth).messagesList = [] ∧
    (resetChat s innerWidth).currentChatName = none ∧
    (resetChat s innerWidth).hasMessages = false ∧
    (resetChat s innerWidth).isGeneratingName = false ∧
    (resetChat s innerWidth).isTyping = s.isTyping := by
  unfold resetChat
  simp only [closeSidebar]
  split <;>
  · simp only [(toggleSendButton_fields _).1, (toggleSendButton_fields _).2.1,
      (toggleSendButton_fields _).2.2.1, (toggleSendButton_fields _).2.2.2.1,
      (toggleSendButton_fields _).2.2.2.2.1]
    simp

/-! ## Lemmas on runs -/

theorem nameCalls_calls_append (w : World) (c : Controller) (ps : List PendingSend)
    (ns : List JSString) (l : List ApiCall) :
    nameCalls { ctl := c, pendingSends := ps, pendingNames := ns, calls := w.calls ++ l }
      = nameCalls w ++ (l.filterMap fun c => match c with | .generateChatName m => some m | .sendMessage _ => none) := by
  simp [nameCalls, List.filterMap_append]

theorem step_send_noop (w : World) (text : JSString)
    (h : blank text ∨ w.ctl.isTyping = true) : step w (.send text) = w := by
  simp only [step]
  rw [handleSendStart_noop _ _ h]
  cases w
  simp [callLog]

theorem step_send_accept (w : World) (text : JSString)
    (hb : ¬ blank text) (ht : w.ctl.isTyping = false) :
    step w (.send text) =
      { ctl := (handleSendStart w.ctl text).1,
        pendingSends := w.pendingSends ++ [{ text := text, isFirstMessage := !w.ctl.hasMessages }],
        pendingNames := w.pendingNames,
        calls := w.calls ++ [.sendMessage text] } := by
  simp only [step]
  rw [handleSendStart_accept _ _ hb ht]
  rfl

theorem step_sendSettled (w : World) (p : PendingSend) (rest : List PendingSend)
    (res : FetchResult ChatData) (hp : w.pendingSends = p :: rest) :
    ∃ c call,
      step w (.sendSettled res) =
        { ctl := c, pendingSends := rest, pendingNames := w.pendingNames ++ nameRequests call,
          calls := w.calls ++ callLog call } ∧
      c.hasMessages = w.ctl.hasMessages ∧
      call = (if (p.isFirstMessage && !w.ctl.isGeneratingName && exchangeSucceeds p.text res)
                = true
              then some (.generateChatName p.text) else none) := by
  obtain ⟨reply, call, hres, hcall, _, _⟩ :=
    handleSendResume_cases w.ctl p (sendMessage p.text res)
  refine ⟨(handleSendResume w.ctl p (sendMessage p.text res)).1, call, ?_, ?_, hcall⟩
  · simp only [step, hp]
    rw [hres]
  · rw [hres]
    cases call <;> simp [generateAndDisplayChatNameStart]

theorem step_nameSettled_none (w : World) (res : FetchResult NameData)
    (h : w.pendingNames = []) : step w (.nameSettled res) = w := by
  simp only [step, h]

theorem step_sendSettled_none (w : World) (res : FetchResult ChatData)
    (h : w.pendingSends = []) : step w (.sendSettled res) = w := by
  simp only [step, h]

theorem thinkingStage_fields (s : Controller) (late : Bool) :
    (thinkingStage s late).hasMessages = s.hasMessages ∧
    (thinkingStage s late).isTyping = s.isTyping ∧
    (thinkingStage s late).isGeneratingName = s.isGeneratingName := by
  unfold thinkingStage
  split <;> simp

theorem thinkingStage_idle (s : Controller) (late : Bool) (h : s.isTyping = false) :
    thinkingStage s late = s := by
  simp [thinkingStage, h]

theorem step_later (w : World) (e : Event) (h1 : w.ctl.hasMessages = true)
    (h2 : ∀ p ∈ w.pendingSends, p.isFirstMessage = false) :
    (step w e).ctl.hasMessages = true ∧
    (∀ p ∈ (step w e).pendingSends, p.isFirstMessage = false) ∧
    nameCalls (step w e) = nameCalls w := by
  cases e with
  | send text =>
    by_cases hg : blank text ∨ w.ctl.isTyping = true
    · rw [step_send_noop w text hg]
      exact ⟨h1, h2, rfl⟩
    · have hb : ¬ blank text := fun h => hg (Or.inl h)
      have ht : w.ctl.isTyping = false := by
        cases h : w.ctl.isTyping with
        | false => rfl
        | true => exact absurd (Or.inr h) hg
      rw [step_send_accept w text hb ht]
      refine ⟨(handleSendStart_messages _ text hb ht).2.2.1, ?_, ?_⟩
      · intro p hp
        simp only [List.mem_append, List.mem_singleton] at hp
        rcases hp with hp | hp
        · exact h2 p hp
        · rw [hp, h1]; rfl
      · rw [nameCalls_calls_append]
        simp
  | sendSettled res =>
    cases hp : w.pendingSends with
    | nil =>
      rw [step_sendSettled_none w res hp]
      exact ⟨h1, by rw [hp]; simp, rfl⟩
    | cons p rest =>
      obtain ⟨c, call, hstep, hc, hcall⟩ := step_sendSettled w p rest res hp
      have hpf : p.isFirstMessage = false := h2 p (by rw [hp]; exact List.mem_cons_self p rest)
      have hnone : call = none := by rw [hcall, hpf]; simp
      rw [hstep, hnone]
      refine ⟨by rw [hc]; exact h1, ?_, ?_⟩
      · intro q hq
        exact h2 q (by rw [hp]; exact List.mem_cons_of_mem p hq)
      · rw [nameCalls_calls_append]
        simp [callLog]
  | nameSettled res =>
    cases hn : w.pendingNames with
    | nil =>
      rw [step_nameSettled_none w res hn]
      exact ⟨h1, h2, rfl⟩
    | cons m rest =>
      simp only [step, hn]
      refine ⟨?_, h2, rfl⟩
      unfold generateAndDisplayChatNameResume
      split <;> exact h1
  | timer late =>
    simp only [step]
    exact ⟨by rw [(thinkingStage_fields _ _).1]; exact h1, h2, rfl⟩

theorem run_later (evs : List Event) :
    ∀ w : World, w.ctl.hasMessages = true →
      (∀ p ∈ w.pendingSends, p.isFirstMessage = false) →
      nameCalls (run w evs) = nameCalls w := by
  induction evs with
  | nil => intro w _ _; rfl
  | cons e evs ih =>
    intro w h1 h2
    obtain ⟨g1, g2, g3⟩ := step_later w e h1 h2
    show nameCalls (run (step w e) evs) = nameCalls w
    rw [ih (step w e) g1 g2, g3]

theorem step_nameSettled_fields (w : World) (res : FetchResult NameData) :
    (step w (.nameSettled res)).ctl.hasMessages = w.ctl.hasMessages ∧
    (step w (.nameSettled res)).ctl.isTyping = w.ctl.isTyping ∧
    (w.ctl.isGeneratingName = false →
      (step w (.nameSettled res)).ctl.isGeneratingName = false) ∧
    (step w (.nameSettled res)).pendingSends = w.pendingSends ∧
    nameCalls (step w (.nameSettled res)) = nameCalls w := by
  cases hn : w.pendingNames with
  | nil =>
    rw [step_nameSettled_none w res hn]
    exact ⟨rfl, rfl, id, rfl, rfl⟩
  | cons m rest =>
    have hs : step w (.nameSettled res) =
        { w with ctl := generateAndDisplayChatNameResume w.ctl (generateChatName m res),
                 pendingNames := rest } := by
      simp only [step, hn]
    rw [hs]
    refine ⟨?_, ?_, ?_, rfl, rfl⟩
    · show (generateAndDisplayChatNameResume w.ctl (generateChatName m res)).hasMessages = _
      unfold generateAndDisplayChatNameResume
      split <;> rfl
    · show (generateAndDisplayChatNameResume w.ctl (generateChatName m res)).isTyping = _
      unfold generateAndDisplayChatNameResume
      split <;> rfl
    · intro _
      show (generateAndDisplayChatNameResume w.ctl (generateChatName m res)).isGeneratingName = _
      unfold generateAndDisplayChatNameResume
      split <;> rfl

theorem run_awaiting (evs : List Event) :
    ∀ (w : World) (text : JSString), w.ctl.hasMessages = true → w.ctl.isTyping = true →
      w.ctl.isGeneratingName = false →
      w.pendingSends = [{ text := text, isFirstMessage := true }] →
      nameCalls (run w evs)
        = nameCalls w ++ expectedNameCalls ((firstSettled evs).map fun res => (text, res)) := by
  induction evs with
  | nil => intro w text _ _ _ _; simp [run, firstSettled, expectedNameCalls]
  | cons e evs ih =>
    intro w text h1 h2 h3 h4
    show nameCalls (run (step w e) evs) = _
    cases e with
    | send t =>
      rw [step_send_noop w t (Or.inr h2), ih w text h1 h2 h3 h4]
      rfl
    | sendSettled res =>
      obtain ⟨c, call, hstep, hc, hcall⟩ := step_sendSettled w _ [] res h4
      rw [hstep, run_later evs _ (by rw [hc]; exact h1) (by simp), nameCalls_calls_append]
      simp only [h3, Bool.not_false, Bool.and_true, Bool.true_and] at hcall
      simp only [firstSettled, Option.map_some', expectedNameCalls]
      rw [hcall]
      cases exchangeSucceeds text res <;> simp [callLog]
    | nameSettled res =>
      obtain ⟨g1, g2, g3, g4, g5⟩ := step_nameSettled_fields w res
      rw [ih (step w (.nameSettled res)) text (g1.trans h1) (g2.trans h2) (g3 h3)
        (g4.trans h4), g5]
      rfl
    | timer late =>
      have hf := thinkingStage_fields w.ctl late
      have := ih { w with ctl := thinkingStage w.ctl late } text
        (by rw [← h1]; exact hf.1) (by rw [← h2]; exact hf.2.1) (by rw [← h3]; exact hf.2.2) h4
      simp only [step]
      rw [this]
      rfl

theorem run_fresh (evs : List Event) :
    ∀ w : World, w.ctl.hasMessages = false → w.ctl.isTyping = false →
      w.ctl.isGeneratingName = false → w.pendingSends = [] →
      nameCalls (run w evs) = nameCalls w ++ expectedNameCalls (firstExchange evs) := by
  induction evs with
  | nil => intro w _ _ _ _; simp [run, firstExchange, expectedNameCalls]
  | cons e evs ih =>
    intro w h1 h2 h3 h4
    show nameCalls (run (step w e) evs) = _
    cases e with
    | send t =>
      by_cases hb : blank t
      · rw [step_send_noop w t (Or.inl hb), ih w h1 h2 h3 h4]
        simp [firstExchange, hb]
      · rw [step_send_accept w t hb h2]
        have hm := handleSendStart_messages w.ctl t hb h2
        have hw := run_awaiting evs
          { ctl := (handleSendStart w.ctl t).1,
            pendingSends := w.pendingSends ++ [{ text := t, isFirstMessage := !w.ctl.hasMessages }],
            pendingNames := w.pendingNames,
            calls := w.calls ++ [.sendMessage t] } t hm.2.2.1 hm.2.1 (hm.2.2.2.trans h3)
          (by simp [h4, h1])
        rw [hw, nameCalls_calls_append]
        simp [firstExchange, hb]
    | sendSettled res =>
      rw [step_sendSettled_none w res h4, ih w h1 h2 h3 h4]
      rfl
    | nameSettled res =>
      obtain ⟨g1, g2, g3, g4, g5⟩ := step_nameSettled_fields w res
      rw [ih (step w (.nameSettled res)) (g1.trans h1) (g2.trans h2) (g3 h3) (g4.trans h4), g5]
      rfl
    | timer late =>
      simp only [step]
      rw [thinkingStage_idle _ _ h2, ih w h1 h2 h3 h4]
      rfl

theorem expectedNameCalls_length (first : Option (JSString × FetchResult ChatData)) :
    (expectedNameCalls first).length ≤ 1 := by
  unfold expectedNameCalls
  split
  · split <;> simp
  · simp

/-! ## Lemmas on the formatter -/

theorem not_newline_of_not_terminator (s : JSString)
    (h : ∀ c ∈ s, c ≠ '*' ∧ isLineTerminator c = false) : ∀ c ∈ s, c ≠ '\n' := by
  intro c hc hn
  have := (h c hc).2
  rw [hn] at this
  exact absurd this (by decide)

/-! ## Lemmas on the rendering of backend text -/

theorem textContentAux_append (s t : JSString) :
    ∀ b, textContentAux b (s ++ t) = textContentAux b s ++ textContentAux (tagState b s) t := by
  induction s with
  | nil => intro b; cases b <;> simp [textContentAux, tagState]
  | cons c cs ih =>
    intro b
    cases b
    · by_cases h : c = '<'
      · simp [textContentAux, tagState, h, ih]
      · by_cases h0 : c = Char.ofNat 0 <;> simp [textContentAux, tagState, h, h0, ih]
    · by_cases h : c = '>' <;> simp [textContentAux, tagState, h, ih]

theorem textContentAux_plain (s : JSString) (h : plainText s) :
    textContentAux false s = s ∧ tagState false s = false := by
  induction s with
  | nil => simp [textContentAux, tagState]
  | cons c cs ih =>
    have hc := h c (List.mem_cons_self c cs)
    have := ih (fun a ha => h a (List.mem_cons_of_mem c ha))
    simp [textContentAux, tagState, hc.1, hc.2.2.2, this]

theorem normalizeNewlines_id (s : JSString) (h : ∀ c ∈ s, c ≠ '\r') :
    normalizeNewlines s = s := by
  unfold normalizeNewlines
  induction s with
  | nil => rfl
  | cons c cs ih =>
    have hc := h c (List.mem_cons_self c cs)
    have := ih (fun a ha => h a (List.mem_cons_of_mem c ha))
    simp [normalizeAux, hc, this]

theorem digitChar_ne_lt (m : Nat) (h : m < 10) : Nat.digitChar m ≠ '<' := by
  interval_cases m <;> decide

theorem toDigitsCore_ne_lt (fuel : Nat) :
    ∀ (n : Nat) (ds : List Char), (∀ c ∈ ds, c ≠ '<') →
      ∀ c ∈ Nat.toDigitsCore 10 fuel n ds, c ≠ '<' := by
  induction fuel with
  | zero => intro n ds h; simpa [Nat.toDigitsCore] using h
  | succ fuel ih =>
    intro n ds h
    have hd : ∀ c ∈ Nat.digitChar (n % 10) :: ds, c ≠ '<' := by
      intro c hc
      rcases List.mem_cons.mp hc with hc | hc
      · rw [hc]; exact digitChar_ne_lt _ (Nat.mod_lt _ (by decide))
      · exact h c hc
    unfold Nat.toDigitsCore
    simp only
    split
    · exact hd
    · exact ih _ _ hd

theorem repr_ne_lt (n : Nat) : ∀ c ∈ (Nat.repr n).toList, c ≠ '<' := by
  have : (Nat.repr n).toList = Nat.toDigitsCore 10 (n + 1) n [] := rfl
  rw [this]
  exact toDigitsCore_ne_lt _ _ _ (by simp)

theorem tagState_append (s t : JSString) :
    ∀ b, tagState b (s ++ t) = tagState (tagState b s) t := by
  induction s with
  | nil => intro b; cases b <;> simp [tagState]
  | cons c cs ih =>
    intro b
    cases b
    · by_cases h : c = '<' <;> simp [tagState, h, ih]
    · by_cases h : c = '>' <;> simp [tagState, h, ih]

theorem authorHtml_text (src : Source) (ha : ∀ a, src.author = some a → plainText a) :
    textContentAux false (authorHtml src) = authorText src ∧
    tagState false (authorHtml src) = false ∧
    ∀ c ∈ authorHtml src, c ≠ '\r' := by
  unfold authorHtml authorText
  cases hsrc : src.author with
  | none => simp [textContentAux, tagState]
  | some a =>
    have hp := textContentAux_plain a (ha a hsrc)
    have h1 : textContentAux false separatorSpan = sourceSeparator := by decide
    have h2 : tagState false separatorSpan = false := by decide
    have h3 : textContentAux false "<span>".toList = [] := by decide
    have h4 : tagState false "<span>".toList = false := by decide
    have h5 : textContentAux false "</span>".toList = [] := by decide
    have h6 : tagState false "</span>".toList = false := by decide
    have r1 : ∀ c ∈ separatorSpan, c ≠ '\r' := by decide
    have r2 : ∀ c ∈ "<span>".toList, c ≠ '\r' := by decide
    have r3 : ∀ c ∈ "</span>".toList, c ≠ '\r' := by decide
    cases a with
    | nil => simp [truthy, textContentAux, tagState]
    | cons c cs =>
      simp only [truthy, List.isEmpty_cons, Bool.not_false, if_true, ne_eq, not_false_eq_true,
        reduceCtorEq]
      refine ⟨?_, ?_, ?_⟩
      · simp only [textContentAux_append, tagState_append, h1, h2, h3, h4, h5, h6, hp.1, hp.2,
          List.append_nil, List.nil_append]
      · simp only [tagState_append, h2, h4, h6, hp.2]
      · intro x hx
        simp only [List.mem_append] at hx
        rcases hx with ((hx | hx) | hx) | hx
        · exact r1 x hx
        · exact r2 x hx
        · exact (ha _ hsrc x hx).2.2.1
        · exact r3 x hx

theorem pageHtml_text (src : Source) (hp : ∀ n, src.page = some n → plainText n.shown) :
    textContentAux false (pageHtml src) = pageText src ∧
    tagState false (pageHtml src) = false ∧
    ∀ c ∈ pageHtml src, c ≠ '\r' := by
  unfold pageHtml pageText
  cases hsrc : src.page with
  | none => simp [textContentAux, tagState]
  | some n =>
    have hq := textContentAux_plain _ (hp n hsrc)
    have h1 : textContentAux false "<span class=\"opacity-75\"> (p. ".toList = " (p. ".toList := by
      decide
    have h2 : tagState false "<span class=\"opacity-75\"> (p. ".toList = false := by decide
    have h3 : textContentAux false ")</span>".toList = ")".toList := by decide
    have h4 : tagState false ")</span>".toList = false := by decide
    have r1 : ∀ c ∈ "<span class=\"opacity-75\"> (p. ".toList, c ≠ '\r' := by decide
    have r3 : ∀ c ∈ ")</span>".toList, c ≠ '\r' := by decide
    by_cases ht : n.isTruthy = true
    · simp only [ht, if_true]
      refine ⟨?_, ?_, ?_⟩
      · simp only [textContentAux_append, tagState_append, h1, h2, h3, h4, hq.1, hq.2]
      · simp only [tagState_append, h2, h4, hq.2]
      · intro x hx
        simp only [List.mem_append] at hx
        rcases hx with (hx | hx) | hx
        · exact r1 x hx
        · exact (hp n hsrc x hx).2.2.1
        · exact r3 x hx
    · simp [ht, textContentAux, tagState]

theorem filter_stars_nil (l : JSString) (h : ∀ c ∈ l, c = '*') :
    l.filter (fun c => decide (c ≠ '*')) = [] := by
  rw [List.filter_eq_nil_iff]
  intro c hc
  simp [h c hc]

theorem replaceAll_sublist (op close : JSString) (tmpl : JSString → JSString) (hop : op ≠ [])
    (hstar : ∀ c ∈ op ++ close, c = '*') (htmpl : ∀ cap : JSString, cap.Sublist (tmpl cap)) :
    ∀ (n : Nat) (s : JSString), s.length ≤ n →
      (s.filter (fun c => decide (c ≠ '*'))).Sublist (replaceAll op close tmpl s) := by
  intro n
  induction n with
  | zero =>
    intro s hs
    have : s = [] := List.length_eq_zero.mp (Nat.le_zero.mp hs)
    subst this
    simp
  | succ n ih =>
    intro s hs
    cases s with
    | nil => simp
    | cons c cs =>
      cases hm : matchAt op close (c :: cs) with
      | none =>
        rw [replaceAll_cons_none _ _ _ _ _ hm]
        have hrec := ih cs (by simpa using hs)
        by_cases hc : c = '*'
        · simp only [List.filter_cons, hc, ne_eq, not_true_eq_false, decide_False]
          exact List.Sublist.cons _ hrec
        · simp only [List.filter_cons, ne_eq, hc, not_false_eq_true, decide_True, if_true]
          exact List.Sublist.cons₂ _ hrec
      | some pr =>
        obtain ⟨cap, rest⟩ := pr
        have heq := matchAt_eq op close _ cap rest hm
        have hlt := matchAt_rest_lt op close _ cap rest hop hm
        rw [replaceAll_match _ _ _ hop _ _ _ hm, heq]
        have hrec := ih rest (by simp at hs hlt; omega)
        have hopn := filter_stars_nil op (fun c hc => hstar c (List.mem_append_left _ hc))
        have hcln := filter_stars_nil close (fun c hc => hstar c (List.mem_append_right _ hc))
        simp only [List.filter_append, hopn, hcln, List.nil_append, List.append_nil]
        exact List.Sublist.append ((List.filter_sublist cap).trans (htmpl cap)) hrec

theorem strongTmpl_sublist (cap : JSString) : cap.Sublist (strongTmpl cap) := by
  unfold strongTmpl
  exact (List.sublist_append_right strongOpen cap).trans (List.sublist_append_left _ strongClose)

theorem emTmpl_sublist (cap : JSString) : cap.Sublist (emTmpl cap) := by
  unfold emTmpl
  exact (List.sublist_append_right emOpen cap).trans (List.sublist_append_left _ emClose)

theorem formatParagraph_sublist (p : JSString) :
    (p.filter (fun c => decide (c ≠ '*'))).Sublist (formatParagraph p) := by
  unfold formatParagraph
  cases p with
  | nil => simp
  | cons c cs =>
    simp only [List.isEmpty_cons, Bool.false_eq_true, if_false]
    have h1 := replaceAll_sublist ['*', '*'] ['*', '*'] strongTmpl (by simp) (by decide)
      strongTmpl_sublist _ (c :: cs) (le_refl _)
    have h2 := replaceAll_sublist ['*'] ['*'] emTmpl (by simp) (by decide)
      emTmpl_sublist _ (replaceBold (c :: cs)) (le_refl _)
    have h3 := h1.filter (fun c => decide (c ≠ '*'))
    rw [List.filter_filter] at h3
    simp only [Bool.and_self] at h3
    have h4 := h3.trans h2
    exact (h4.trans (List.sublist_append_right pOpen _)).trans (List.sublist_append_left _ pClose)

theorem splitLines_ne_nil (t : JSString) : splitLines t ≠ [] := by
  cases t with
  | nil => simp [splitLines]
  | cons c cs =>
    unfold splitLines
    split
    · simp
    · split <;> simp

theorem splitLines_flatten (t : JSString) :
    (splitLines t).flatten = t.filter (fun c => decide (c ≠ '\n')) := by
  induction t with
  | nil => simp [splitLines]
  | cons c cs ih =>
    unfold splitLines
    by_cases hc : c = '\n'
    · simp [hc, ih]
    · simp only [hc, if_false]
      cases hs : splitLines cs with
      | nil => exact absurd hs (splitLines_ne_nil cs)
      | cons p ps =>
        rw [hs] at ih
        simp only [List.flatten_cons] at ih
        show (c :: p) ++ ps.flatten = _
        rw [List.filter_cons_of_pos (by simpa using hc), ← ih]
        rfl

theorem formatText_sublist (text : JSString) :
    (text.filter (fun c => decide (c ≠ '*') && decide (c ≠ '\n'))).Sublist (formatText text) := by
  have key : ∀ l : List JSString,
      ((l.flatten).filter (fun c => decide (c ≠ '*'))).Sublist (l.map formatParagraph).flatten := by
    intro l
    induction l with
    | nil => simp
    | cons p ps ih =>
      simp only [List.flatten_cons, List.filter_append, List.map_cons]
      exact List.Sublist.append (formatParagraph_sublist p) ih
  have := key (splitLines text)
  rw [splitLines_flatten, List.filter_filter] at this
  exact this

/-! ## The properties -/

/-- C1. When the request of `generateChatName` fails (network error, non-2xx status,
or unreadable body), the promise still resolves: with the message itself if it
has at most 40 code units, with its first 40 code units followed by `...`
otherwise. -/
theorem generateChatName_fallback (m : JSString) (res : FetchResult NameData)
    (hfail : res = .networkError ∨
      ∃ status body, res = .response status body ∧ (nonSuccess status ∨ body = none)) :
    generateChatName m res =
      .ok (some (if m.length ≤ 40 then m else m.take 40 ++ "...".toList)) := by
  have htry : ∃ e, generateChatNameTry res = .error e := by
    rcases hfail with h | ⟨status, body, h, hs | hb⟩
    · exact ⟨_, by rw [h]; rfl⟩
    · have : statusOk status = false := statusOk_of_nonSuccess status hs
      exact ⟨.error (httpErrorMessage status), by rw [h]; simp [generateChatNameTry, this]⟩
    · rw [h, hb]
      by_cases h1 : statusOk status = true
      · exact ⟨.badBody, by simp [generateChatNameTry, h1]⟩
      · exact ⟨.error (httpErrorMessage status), by simp [generateChatNameTry, h1]⟩
  obtain ⟨e, he⟩ := htry
  unfold generateChatName
  rw [he]
  simp only [fallbackName, substring0]
  by_cases hlen : m.length ≤ 40
  · have : ¬ m.length > 40 := by omega
    simp [hlen, this, List.take_of_length_le hlen]
  · have : m.length > 40 := by omega
    simp [hlen, this]

theorem generateChatName_fallback_witness :
    generateChatName "Tell me about the pyramids of the Old Kingdom".toList
        (.response 503 none) =
      .ok (some "Tell me about the pyramids of the Old Ki...".toList) ∧
    generateChatName "Hello".toList .networkError = .ok (some "Hello".toList) :=
  ⟨generateChatName_fallback _ (.response 503 none)
      (Or.inr ⟨503, none, rfl, Or.inl (by decide)⟩),
   generateChatName_fallback "Hello".toList .networkError (Or.inl rfl)⟩

/-- C2, as the code has it. script.js escapes nothing. `formatText` copies every
code unit of its input other than `*` and the line feed to its output, in
order and unchanged; a non-empty text without asterisk and line feed comes out
verbatim between the paragraph tags. A source card holds the `text` of the
source verbatim, and its `author` verbatim when that is a non-empty string. -/
theorem backend_text_verbatim (text : JSString) (src : Source) :
    (text.filter (fun c => decide (c ≠ '*') && decide (c ≠ '\n'))).Sublist (formatText text) ∧
    ((∀ c ∈ text, c ≠ '*' ∧ c ≠ '\n') → text ≠ [] →
      formatText text = pOpen ++ text ++ pClose) ∧
    src.text <:+: cardHtml src ∧
    (∀ a, src.author = some a → a ≠ [] → a <:+: cardHtml src) := by
  refine ⟨formatText_sublist text, ?_, ?_, ?_⟩
  · intro h hne
    have hz := count_star_eq_zero text (fun c hc => (h c hc).1)
    rw [formatText_single text (fun c hc => (h c hc).2) hne]
    have hb : replaceBold text = text :=
      replaceAll_few ['*', '*'] ['*', '*'] strongTmpl '*' text (by rw [hz]; simp)
    have hi : replaceItalic text = text :=
      replaceAll_few ['*'] ['*'] emTmpl '*' text (by rw [hz]; simp)
    rw [hb, hi]
  · refine ⟨cardHead, "</span>".toList ++ cardBreak ++ authorHtml src ++ cardBreak ++
      pageHtml src ++ cardTail, ?_⟩
    simp [cardHtml]
  · intro a h hne
    refine ⟨cardHead ++ src.text ++ "</span>".toList ++ cardBreak ++ separatorSpan ++
      "<span>".toList, "</span>".toList ++ cardBreak ++ pageHtml src ++ cardTail, ?_⟩
    have ht : truthy a = true := by
      cases a with
      | nil => exact absurd rfl hne
      | cons c cs => rfl
    simp [cardHtml, authorHtml, h, ht]

theorem backend_text_verbatim_witness :
    formatText "<script>alert(1)</script>".toList
      = pOpen ++ "<script>alert(1)</script>".toList ++ pClose ∧
    "<img src=x onerror=alert(1)>".toList <:+:
      cardHtml { text := "Giza".toList, author := some "<img src=x onerror=alert(1)>".toList,
                 page := none } :=
  ⟨(backend_text_verbatim "<script>alert(1)</script>".toList
      { text := [], author := none, page := none }).2.1 (by decide) (by decide),
   (backend_text_verbatim []
      { text := "Giza".toList, author := some "<img src=x onerror=alert(1)>".toList,
        page := none }).2.2.2 _ rfl (by decide)⟩

/-- C2, as stated, fails: the answer text `<script>alert(1)</script>` comes out of
`formatText` with its `<` and `>` unescaped, as a script element inside the
paragraph, and not in the escaped form. -/
theorem script_tag_unescaped :
    formatText "<script>alert(1)</script>".toList
      = pOpen ++ "<script>alert(1)</script>".toList ++ pClose ∧
    formatText "<script>alert(1)</script>".toList
      ≠ pOpen ++ escapeHtmlSpec "<script>alert(1)</script>".toList ++ pClose ∧
    escapeHtmlSpec "<script>alert(1)</script>".toList
      = "&lt;script&gt;alert(1)&lt;/script&gt;".toList ∧
    "<script>".toList <:+: formatText "<script>alert(1)</script>".toList := by
  decide

/-- C3. The guard of `handleSend`: with a blank text (empty or white space only) or
while a response is awaited, the call changes nothing and issues no request;
otherwise it sets `isTyping`, appends the user bubble to the transcript and
issues exactly the one request `sendMessage(text)`. -/
theorem handleSend_guard (s : Controller) (text : JSString) :
    ((blank text ∨ s.isTyping = true) → handleSendStart s text = (s, none, none)) ∧
    (¬ blank text → s.isTyping = false →
      (handleSendStart s text).1.isTyping = true ∧
      (handleSendStart s text).1.messagesList = s.messagesList ++ [userBubble text] ∧
      createMessageElement "user".toList (some text) [] = .ok (userBubble text) ∧
      (handleSendStart s text).2.1 = some (.sendMessage text) ∧
      (handleSendStart s text).2.2 =
        some { text := text, isFirstMessage := !s.hasMessages }) := by
  refine ⟨handleSendStart_noop s text, ?_⟩
  intro hb ht
  have hm := handleSendStart_messages s text hb ht
  refine ⟨hm.2.1, hm.1, createMessageElement_user text [], ?_, ?_⟩
  · rw [handleSendStart_accept s text hb ht]
  · rw [handleSendStart_accept s text hb ht]

theorem handleSend_guard_witness :
    handleSendStart pageLoad " \t\n".toList = (pageLoad, none, none) ∧
    (handleSendStart pageLoad "Tell me about pyramids".toList).1.isTyping = true ∧
    (handleSendStart pageLoad "Tell me about pyramids".toList).2.1
      = some (.sendMessage "Tell me about pyramids".toList) :=
  ⟨(handleSend_guard pageLoad " \t\n".toList).1 (Or.inl (by decide)),
   ((handleSend_guard pageLoad "Tell me about pyramids".toList).2 (by decide) rfl).1,
   ((handleSend_guard pageLoad "Tell me about pyramids".toList).2 (by decide) rfl).2.2.2.1⟩

/-- C4. A send that passed the guard and whose `sendMessage` settles, with any
outcome `res` of the request: the continuation of `handleSend` resolves (no
error reaches the caller), clears `isTyping`, hides the thinking indicator and
appends exactly one assistant bubble to the transcript it finds. The bubble
shows the answer when `sendMessage` resolved with an answer string; it is the
static apology bubble otherwise, in particular on a non-2xx status. When
nothing else touched the transcript in between, the transcript is the old one
followed by the user bubble and that assistant bubble. -/
theorem handleSend_settles (s : Controller) (text : JSString) (res : FetchResult ChatData)
    (hb : ¬ blank text) (ht : s.isTyping = false) :
    ∃ p, (handleSendStart s text).2.2 = some p ∧
      ∀ s1 : Controller, ∃ s2 call reply,
        handleSendResume s1 p (sendMessage text res) = (s2, .ok call) ∧
        s2.isTyping = false ∧ s2.thinkingHidden = true ∧
        s2.messagesList = s1.messagesList ++ [reply] ∧
        reply.isAI = true ∧
        (∀ a srcs, sendMessage text res = .ok ⟨some a, srcs⟩ →
          createMessageElement "ai".toList (some a) srcs = .ok reply) ∧
        ((∀ a srcs, sendMessage text res ≠ .ok ⟨some a, srcs⟩) → reply = apologyBubble) ∧
        (∀ status body, res = .response status body → nonSuccess status →
          reply = apologyBubble) ∧
        (s1 = (handleSendStart s text).1 →
          s2.messagesList = s.messagesList ++ [userBubble text, reply]) := by
  refine ⟨{ text := text, isFirstMessage := !s.hasMessages }, ?_, ?_⟩
  · rw [handleSendStart_accept s text hb ht]
  intro s1
  obtain ⟨reply, call, hres, _, hok, hfail⟩ :=
    handleSendResume_cases s1 { text := text, isFirstMessage := !s.hasMessages }
      (sendMessage text res)
  refine ⟨_, call, reply, hres, rfl, rfl, ?_, ?_, hok, hfail, ?_, ?_⟩
  · cases call <;> simp [generateAndDisplayChatNameStart]
  · by_cases h : ∃ a srcs, sendMessage text res = .ok ⟨some a, srcs⟩
    · obtain ⟨a, srcs, h⟩ := h
      exact createMessageElement_ai_isAI _ _ _ (hok a srcs h)
    · rw [hfail (fun a srcs hh => h ⟨a, srcs, hh⟩)]
      rfl
  · intro status body hr hs
    apply hfail
    intro a srcs
    rw [hr]
    simp [sendMessage, statusOk_of_nonSuccess status hs]
  · intro hs1
    have hm := (handleSendStart_messages s text hb ht).1
    have : (s1.messagesList ++ [reply]) = s.messagesList ++ [userBubble text, reply] := by
      rw [hs1, hm]
      simp
    rw [← this]

theorem handleSend_settles_witness :
    ¬ blank "Tell me about pyramids".toList ∧ pageLoad.isTyping = false ∧
    ∃ p, (handleSendStart pageLoad "Tell me about pyramids".toList).2.2 = some p ∧
      ∃ s2 call, handleSendResume (handleSendStart pageLoad "Tell me about pyramids".toList).1 p
          (sendMessage "Tell me about pyramids".toList (.response 500 none)) = (s2, .ok call) ∧
        s2.isTyping = false ∧
        s2.messagesList = [userBubble "Tell me about pyramids".toList, apologyBubble] :=
  ⟨by decide, rfl, by
    obtain ⟨p, hp, h⟩ := handleSend_settles pageLoad "Tell me about pyramids".toList
      (.response 500 none) (by decide) rfl
    obtain ⟨s2, call, reply, h1, h2, _, _, _, _, _, h8, h9⟩ :=
      h (handleSendStart pageLoad "Tell me about pyramids".toList).1
    have hr : reply = apologyBubble := h8 500 none rfl (by decide)
    refine ⟨p, hp, s2, call, h1, h2, ?_⟩
    rw [h9 rfl, hr]
    rfl⟩

/-- C5, as the code has it. After page load, or after a `resetChat` made while no
response is awaited (whatever name request of the earlier conversation is still
pending), in every run of send actions, settlements and timers with no further
reset: the name-generation call is fired at most once; it is fired, for the text
of the first accepted send, when and only when the exchange of that first send
succeeds, at the moment that exchange settles. A conversation whose first
exchange fails never gets a name-generation call. -/
theorem nameCall_first_exchange (c : Controller) (names : List JSString) (evs : List Event)
    (hfresh : c = pageLoad ∨ ∃ s innerWidth, s.isTyping = false ∧ c = resetChat s innerWidth) :
    nameCalls (run { ctl := c, pendingSends := [], pendingNames := names, calls := [] } evs)
      = expectedNameCalls (firstExchange evs) ∧
    (nameCalls (run { ctl := c, pendingSends := [], pendingNames := names, calls := [] }
      evs)).length ≤ 1 := by
  have hc : c.hasMessages = false ∧ c.isTyping = false ∧ c.isGeneratingName = false := by
    rcases hfresh with h | ⟨s, innerWidth, hs, h⟩
    · rw [h]; exact ⟨rfl, rfl, rfl⟩
    · obtain ⟨_, _, f3, f4, f5⟩ := resetChat_fields s innerWidth
      rw [h]
      exact ⟨f3, f5.trans hs, f4⟩
  have h := run_fresh evs { ctl := c, pendingSends := [], pendingNames := names, calls := [] }
    hc.1 hc.2.1 hc.2.2 rfl
  have h0 : nameCalls { ctl := c, pendingSends := [], pendingNames := names, calls := [] } = [] :=
    rfl
  rw [h0, List.nil_append] at h
  refine ⟨h, ?_⟩
  rw [h]
  exact expectedNameCalls_length _

theorem nameCall_first_exchange_witness :
    nameCalls (run (quiet pageLoad)
      [.send "Tell me about pyramids".toList,
       .sendSettled (.response 200 (some { answer := some "Pyramids...".toList, sources := none })),
       .send "And the Nile?".toList,
       .sendSettled (.response 200 (some { answer := some "The Nile...".toList, sources := none }))])
      = ["Tell me about pyramids".toList] :=
  (nameCall_first_exchange pageLoad [] _ (Or.inl rfl)).1

/-- C5, as stated, fails: when the first exchange of a conversation fails and the
second succeeds, no name-generation call is ever fired, although an exchange of
the conversation succeeded and its answer is in the transcript. -/
theorem nameCall_missed :
    nameCalls (run (quiet pageLoad)
      [.send "Tell me about pyramids".toList,
       .sendSettled (.response 500 none),
       .send "And the Nile?".toList,
       .sendSettled (.response 200 (some { answer := some "The Nile...".toList, sources := none }))])
      = [] ∧
    exchangeSucceeds "And the Nile?".toList
      (.response 200 (some { answer := some "The Nile...".toList, sources := none })) = true ∧
    (run (quiet pageLoad)
      [.send "Tell me about pyramids".toList,
       .sendSettled (.response 500 none),
       .send "And the Nile?".toList,
       .sendSettled (.response 200 (some { answer := some "The Nile...".toList, sources := none }))]
      ).ctl.messagesList
      = [userBubble "Tell me about pyramids".toList, apologyBubble,
         userBubble "And the Nile?".toList,
         { isAI := true, html := formatText "The Nile...".toList, sourceSection := none }] := by
  decide

/-- C6, as the code has it. `resetChat` empties the message list, sets
`currentChatName` to `null`, `hasMessages` and `isGeneratingName` to `false`, and
leaves `isTyping` as it was; hence, when no response is awaited at the time of
the reset, the next `handleSend` with a non-blank text is accepted and treated
as the first message of a new conversation. -/
theorem resetChat_idle (s : Controller) (innerWidth : Nat) :
    (resetChat s innerWidth).messagesList = [] ∧
    (resetChat s innerWidth).currentChatName = none ∧
    (resetChat s innerWidth).hasMessages = false ∧
    (resetChat s innerWidth).isGeneratingName = false ∧
    (resetChat s innerWidth).isTyping = s.isTyping ∧
    (s.isTyping = false → ∀ text, ¬ blank text →
      (handleSendStart (resetChat s innerWidth) text).2.1 = some (.sendMessage text) ∧
      (handleSendStart (resetChat s innerWidth) text).2.2 =
        some { text := text, isFirstMessage := true }) := by
  obtain ⟨h1, h2, h3, h4, h5⟩ := resetChat_fields s innerWidth
  refine ⟨h1, h2, h3, h4, h5, ?_⟩
  intro ht text hb
  rw [handleSendStart_accept _ text hb (by rw [h5, ht])]
  simp [h3]

theorem resetChat_idle_witness :
    pageLoad.isTyping = false ∧ ¬ blank "Hello".toList ∧
    (handleSendStart (resetChat pageLoad 1024) "Hello".toList).2.2 =
      some { text := "Hello".toList, isFirstMessage := true } :=
  ⟨rfl, by decide,
    ((resetChat_idle pageLoad 1024).2.2.2.2.2 rfl "Hello".toList (by decide)).2⟩

/-- C6, as stated, fails: a reset made while a request is in flight (here right
after the first send from page load) leaves `isTyping` set, and the next
non-blank `handleSend` is dropped by the guard. -/
theorem resetChat_in_flight :
    (handleSendStart pageLoad "Hi".toList).1.isTyping = true ∧
    (resetChat (handleSendStart pageLoad "Hi".toList).1 1024).isTyping = true ∧
    ¬ blank "Again".toList ∧
    handleSendStart (resetChat (handleSendStart pageLoad "Hi".toList).1 1024) "Again".toList
      = (resetChat (handleSendStart pageLoad "Hi".toList).1 1024, none, none) := by
  decide

/-- C7, as the code has it. Take a source whose `text`, `author` and printed page
hold no `<`, no `&`, no carriage return and no U+0000 (no printed number holds
any). The text content of its card is, between the indentation white space of
the template: `text`; then the separator of script.js directly followed by the
author, exactly when `author` is a non-empty string; then ` (p. N)`, with `N`
as JavaScript prints the number, exactly when `page` is a truthy number, that
is neither `0` nor `NaN`. For an integer from 0 to 2^53 - 1 the printed number
is its decimal notation, and it is truthy unless it is 0. -/
theorem card_text (src : Source) (ht : plainText src.text)
    (ha : ∀ a, src.author = some a → plainText a)
    (hp : ∀ n, src.page = some n → plainText n.shown) :
    textContent (cardHtml src)
      = textContent cardHead ++ src.text ++ cardBreak ++ authorText src ++ cardBreak ++
        pageText src ++ textContent cardTail ∧
    (∀ c ∈ textContent cardHead ++ cardBreak ++ textContent cardTail, c = ' ' ∨ c = '\n') ∧
    (∀ a, src.author = some a → a ≠ [] → authorText src = sourceSeparator ++ a) ∧
    ((src.author = none ∨ src.author = some []) → authorText src = []) ∧
    (∀ n, src.page = some n → n.isTruthy = true →
      pageText src = " (p. ".toList ++ n.shown ++ ")".toList) ∧
    ((src.page = none ∨ ∃ n, src.page = some n ∧ n.isTruthy = false) → pageText src = []) ∧
    (∀ k : Fin 9007199254740992,
      (JSNumber.ofSafe k).shown = (Nat.repr k.val).toList ∧
      ((JSNumber.ofSafe k).isTruthy = true ↔ k.val ≠ 0)) := by
  refine ⟨?_, by decide, ?_, ?_, ?_, ?_, ?_⟩
  · have hq := textContentAux_plain src.text ht
    have hb : textContentAux false cardBreak = cardBreak ∧ tagState false cardBreak = false :=
      textContentAux_plain cardBreak (by decide)
    have h1 : tagState false cardHead = false := by decide
    have h5 : textContentAux false "</span>".toList = [] := by decide
    have h6 : tagState false "</span>".toList = false := by decide
    have hA := authorHtml_text src ha
    have hP := pageHtml_text src hp
    have e1 : textContent cardHead = textContentAux false cardHead := by decide
    have e2 : textContent cardTail = textContentAux false cardTail := by decide
    have r1 : ∀ c ∈ cardHead, c ≠ '\r' := by decide
    have r2 : ∀ c ∈ "</span>".toList, c ≠ '\r' := by decide
    have r3 : ∀ c ∈ cardBreak, c ≠ '\r' := by decide
    have r4 : ∀ c ∈ cardTail, c ≠ '\r' := by decide
    have hcr : ∀ c ∈ cardHtml src, c ≠ '\r' := by
      intro c hc
      unfold cardHtml at hc
      simp only [List.mem_append] at hc
      rcases hc with ((((((h | h) | h) | h) | h) | h) | h) | h
      · exact r1 c h
      · exact (ht c h).2.2.1
      · exact r2 c h
      · exact r3 c h
      · exact hA.2.2 c h
      · exact r3 c h
      · exact hP.2.2 c h
      · exact r4 c h
    rw [e1, e2]
    unfold textContent
    rw [normalizeNewlines_id _ hcr]
    unfold cardHtml
    simp only [textContentAux_append, tagState_append, h1, h5, h6, hq.1, hq.2, hb.1, hb.2,
      hA.1, hA.2.1, hP.1, hP.2.1, List.append_nil]
  · intro a h hne
    simp [authorText, h, hne]
  · intro h
    rcases h with h | h <;> simp [authorText, h]
  · intro n h hn
    simp [pageText, h, hn]
  · intro h
    rcases h with h | ⟨n, h, hn⟩
    · simp [pageText, h]
    · simp [pageText, h, hn]
  · intro k
    refine ⟨rfl, ?_⟩
    simp [JSNumber.ofSafe]

theorem card_text_witness :
    textContent (cardHtml { text := "Giza".toList, author := some "Lehner".toList,
                            page := some (JSNumber.ofSafe 7) })
      = textContent cardHead ++ "Giza".toList ++ cardBreak ++
        (sourceSeparator ++ "Lehner".toList) ++ cardBreak ++ " (p. 7)".toList ++
        textContent cardTail ∧
    textContent (cardHtml { text := "Giza".toList, author := none,
                            page := some { isTruthy := true, shown := "-1.5".toList } })
      = textContent cardHead ++ "Giza".toList ++ cardBreak ++ cardBreak ++
        " (p. -1.5)".toList ++ textContent cardTail :=
  ⟨(card_text { text := "Giza".toList, author := some "Lehner".toList,
                page := some (JSNumber.ofSafe 7) }
      (by decide) (by decide) (by decide)).1,
   (card_text { text := "Giza".toList, author := none,
                page := some { isTruthy := true, shown := "-1.5".toList } }
      (by decide) (by decide) (by decide)).1⟩

/-- C7, as stated, fails: a source whose `author` is present but empty and whose
`page` is present but `0` shows its text alone, with no separator and no
` (p. 0)`. -/
theorem card_hides_falsy_fields :
    textContent (cardHtml { text := "Giza".toList, author := some [],
                            page := some (JSNumber.ofSafe 0) })
      = textContent cardHead ++ "Giza".toList ++ cardBreak ++ cardBreak ++ textContent cardTail ∧
    (∀ c ∈ textContent (cardHtml { text := "Giza".toList, author := some [],
                                   page := some (JSNumber.ofSafe 0) }),
      c ∈ "Giza".toList ∨ c = ' ' ∨ c = '\n') := by
  decide

/-- The card of the source `Book of the Dead`, `Anon`, page 12, as script.js
renders it: the separator is the three code units U+00E2 U+20AC U+00A2. -/
theorem card_of_book_of_the_dead :
    textContent (cardHtml
        { text := "Book of the Dead".toList, author := some "Anon".toList,
          page := some (JSNumber.ofSafe 12) })
      = textContent cardHead ++ "Book of the Dead".toList ++ cardBreak ++
        [Char.ofNat 0xE2, Char.ofNat 0x20AC, Char.ofNat 0xA2] ++ "Anon".toList ++ cardBreak ++
        " (p. 12)".toList ++ textContent cardTail := by
  decide

/-- C8, as the code has it. For a line `pre**x**mid*y*post` whose five parts contain
no asterisk and no line feed, and whose `x` and `y` contain no other line
terminator either (carriage return, U+2028, U+2029), `formatText` returns the
paragraph in which `x` stands in one strong-emphasis span, `y` in one
italic-emphasis span, and `pre`, `mid`, `post` are unchanged around them.
On every string `formatText` returns a result; on the malformed `**a*b**` it is
one strong-emphasis span around `a*b`. -/
theorem formatText_bold_italic (pre x mid y post : JSString)
    (hpre : ∀ c ∈ pre, c ≠ '*' ∧ c ≠ '\n')
    (hx : ∀ c ∈ x, c ≠ '*' ∧ isLineTerminator c = false)
    (hmid : ∀ c ∈ mid, c ≠ '*' ∧ c ≠ '\n')
    (hy : ∀ c ∈ y, c ≠ '*' ∧ isLineTerminator c = false)
    (hpost : ∀ c ∈ post, c ≠ '*' ∧ c ≠ '\n') :
    formatText (pre ++ "**".toList ++ x ++ "**".toList ++ mid ++ "*".toList ++ y ++
        "*".toList ++ post)
      = pOpen ++ pre ++ strongOpen ++ x ++ strongClose ++ mid ++ emOpen ++ y ++ emClose ++
        post ++ pClose ∧
    (∀ s : JSString, formatTextJS (some s) = .ok (formatText s)) ∧
    formatText "**a*b**".toList
      = pOpen ++ strongOpen ++ "a*b".toList ++ strongClose ++ pClose := by
  refine ⟨?_, fun s => rfl, by decide⟩
  have hxn := not_newline_of_not_terminator x hx
  have hyn := not_newline_of_not_terminator y hy
  have hline : ∀ c ∈ pre ++ "**".toList ++ x ++ "**".toList ++ mid ++ "*".toList ++ y ++
        "*".toList ++ post, c ≠ '\n' := by
    intro c hc
    simp only [List.mem_append, String.toList] at hc
    rcases hc with (((((((h | h) | h) | h) | h) | h) | h) | h) | h
    · exact (hpre c h).2
    · intro hn; rw [hn] at h; revert h; decide
    · exact hxn c h
    · intro hn; rw [hn] at h; revert h; decide
    · exact (hmid c h).2
    · intro hn; rw [hn] at h; revert h; decide
    · exact hyn c h
    · intro hn; rw [hn] at h; revert h; decide
    · exact (hpost c h).2
  rw [formatText_single _ hline (by simp)]
  have e1 : pre ++ "**".toList ++ x ++ "**".toList ++ mid ++ "*".toList ++ y ++
        "*".toList ++ post
      = pre ++ (['*', '*'] ++ (x ++ ('*' :: (['*'] ++ (mid ++ ('*' :: (y ++ ('*' :: post)))))))) := by
    simp
  have hc2 : (mid ++ ('*' :: (y ++ ('*' :: post)))).count '*' < 4 := by
    simp [List.count_append, List.count_cons,
      count_star_eq_zero mid (fun c h => (hmid c h).1),
      count_star_eq_zero y (fun c h => (hy c h).1),
      count_star_eq_zero post (fun c h => (hpost c h).1)]
  rw [e1, replaceBold_one pre x _ (fun c h => (hpre c h).1) hx hc2]
  have e2 : pre ++ (strongTmpl x ++ (mid ++ ('*' :: (y ++ ('*' :: post)))))
      = (pre ++ strongOpen ++ x ++ strongClose ++ mid) ++ (['*'] ++ (y ++ ('*' :: ([] ++ post)))) := by
    simp [strongTmpl]
  have hpre2 : ∀ c ∈ pre ++ strongOpen ++ x ++ strongClose ++ mid, c ≠ '*' := by
    intro c hc
    simp only [List.mem_append] at hc
    rcases hc with (((h | h) | h) | h) | h
    · exact (hpre c h).1
    · exact strongOpen_star c h
    · exact (hx c h).1
    · exact strongClose_star c h
    · exact (hmid c h).1
  rw [e2, replaceItalic_one _ y post hpre2 hy
    (by simp [count_star_eq_zero post (fun c h => (hpost c h).1)])]
  simp [emTmpl]

theorem formatText_bold_italic_witness :
    formatText "The **Great Pyramid** of *Giza*.".toList
      = pOpen ++ "The ".toList ++ strongOpen ++ "Great Pyramid".toList ++ strongClose ++
        " of ".toList ++ emOpen ++ "Giza".toList ++ emClose ++ ".".toList ++ pClose :=
  (formatText_bold_italic "The ".toList "Great Pyramid".toList " of ".toList "Giza".toList
    ".".toList (by decide) (by decide) (by decide) (by decide) (by decide)).1

/-- C8, as stated, fails: with `x = "a\rb"`, which contains no asterisk and no line
feed, the bold rule finds no match (`.` does not cross a carriage return) and the
italic rule turns each `**` into an empty italic span; no strong-emphasis span
is produced. -/
theorem bold_carriage_return :
    (∀ c ∈ "a\rb".toList, c ≠ '*' ∧ c ≠ '\n') ∧
    formatText ("".toList ++ "**".toList ++ "a\rb".toList ++ "**".toList ++ " ".toList ++
        "*".toList ++ "c".toList ++ "*".toList ++ "".toList)
      = pOpen ++ emOpen ++ emClose ++ "a\rb".toList ++ emOpen ++ emClose ++ " ".toList ++
        emOpen ++ "c".toList ++ emClose ++ pClose ∧
    formatText ("".toList ++ "**".toList ++ "a\rb".toList ++ "**".toList ++ " ".toList ++
        "*".toList ++ "c".toList ++ "*".toList ++ "".toList)
      ≠ pOpen ++ "".toList ++ strongOpen ++ "a\rb".toList ++ strongClose ++ " ".toList ++
        emOpen ++ "c".toList ++ emClose ++ "".toList ++ pClose := by
  decide

/-- C9, as the code has it. For `a` and `b` that contain no asterisk and no line
terminator (line feed, carriage return, U+2028, U+2029), `formatText` turns
`**a** **b**` into two strong-emphasis spans, the first around `a`, the second
around `b`, with the single space between them. -/
theorem formatText_two_bold (a b : JSString)
    (ha : ∀ c ∈ a, c ≠ '*' ∧ isLineTerminator c = false)
    (hb : ∀ c ∈ b, c ≠ '*' ∧ isLineTerminator c = false) :
    formatText ("**".toList ++ a ++ "** **".toList ++ b ++ "**".toList)
      = pOpen ++ strongOpen ++ a ++ strongClose ++ " ".toList ++ strongOpen ++ b ++
        strongClose ++ pClose := by
  have han := not_newline_of_not_terminator a ha
  have hbn := not_newline_of_not_terminator b hb
  have hline : ∀ c ∈ "**".toList ++ a ++ "** **".toList ++ b ++ "**".toList, c ≠ '\n' := by
    intro c hc
    simp only [List.mem_append, String.toList] at hc
    rcases hc with (((h | h) | h) | h) | h
    · intro hn; rw [hn] at h; revert h; decide
    · exact han c h
    · intro hn; rw [hn] at h; revert h; decide
    · exact hbn c h
    · intro hn; rw [hn] at h; revert h; decide
  rw [formatText_single _ hline (by simp)]
  have e1 : "**".toList ++ a ++ "** **".toList ++ b ++ "**".toList
      = ['*', '*'] ++ (a ++ ('*' :: (['*'] ++
          ([' '] ++ (['*', '*'] ++ (b ++ ('*' :: (['*'] ++ []))))))))  := by
    simp
  have hbold : replaceBold ("**".toList ++ a ++ "** **".toList ++ b ++ "**".toList)
      = strongTmpl a ++ ([' '] ++ (strongTmpl b ++ [])) := by
    rw [e1]
    unfold replaceBold
    rw [replaceAll_found '*' '*' ['*'] ['*'] strongTmpl a _ ha,
      replaceAll_skip '*' ['*'] ['*', '*'] strongTmpl [' '] _ (by decide),
      replaceAll_found '*' '*' ['*'] ['*'] strongTmpl b _ hb, replaceAll_nil]
  have hstar : ∀ c ∈ strongTmpl a ++ ([' '] ++ (strongTmpl b ++ [])), c ≠ '*' := by
    intro c hc
    simp only [strongTmpl, List.mem_append, List.mem_singleton] at hc
    rcases hc with ((h | h) | h) | h | ((h | h) | h) | h
    · exact strongOpen_star c h
    · exact (ha c h).1
    · exact strongClose_star c h
    · rw [h]; decide
    · exact strongOpen_star c h
    · exact (hb c h).1
    · exact strongClose_star c h
    · simp at h
  rw [hbold]
  unfold replaceItalic
  rw [replaceAll_few ['*'] ['*'] emTmpl '*' _ (by rw [count_star_eq_zero _ hstar]; simp)]
  simp [strongTmpl]

theorem formatText_two_bold_witness :
    formatText "**a** **b**".toList
      = pOpen ++ strongOpen ++ "a".toList ++ strongClose ++ " ".toList ++ strongOpen ++
        "b".toList ++ strongClose ++ pClose :=
  formatText_two_bold "a".toList "b".toList (by decide) (by decide)

/-- C9, as stated, fails: with `a = "\r"`, which contains no asterisk and no line
feed, the bold rule cannot match `**a**`; its first match is `** **`, so the one
strong-emphasis span holds the separating space, and the leftover `**` pairs
become empty italic spans. -/
theorem two_bold_carriage_return :
    (∀ c ∈ "\r".toList, c ≠ '*' ∧ c ≠ '\n') ∧
    formatText ("**".toList ++ "\r".toList ++ "** **".toList ++ "b".toList ++ "**".toList)
      = pOpen ++ emOpen ++ emClose ++ "\r".toList ++ strongOpen ++ " ".toList ++ strongClose ++
        "b".toList ++ emOpen ++ emClose ++ pClose ∧
    formatText ("**".toList ++ "\r".toList ++ "** **".toList ++ "b".toList ++ "**".toList)
      ≠ pOpen ++ strongOpen ++ "\r".toList ++ strongClose ++ " ".toList ++ strongOpen ++
        "b".toList ++ strongClose ++ pClose := by
  decide

/-- C10. A 2xx response whose `sources` field is absent or an empty list makes
`sendMessage` resolve with an empty `sources` list; an assistant bubble built
with no sources has no source section; and a bubble of role `user` never has a
source section, whatever sources are passed. -/
theorem no_sources_no_section (message : JSString) (status : Nat) (data : ChatData)
    (hok : 200 ≤ status ∧ status ≤ 299)
    (hsrc : data.sources = none ∨ data.sources = some []) :
    sendMessage message (.response status (some data))
      = .ok { answer := data.answer, sources := [] } ∧
    (∀ answer : JSString, createMessageElement "ai".toList (some answer) []
      = .ok { isAI := true, html := formatText answer, sourceSection := none }) ∧
    (∀ (content : JSString) (sources : List Source),
      createMessageElement "user".toList (some content) sources
        = .ok { isAI := false, html := formatText content, sourceSection := none }) := by
  have hs : statusOk status = true := by
    unfold statusOk
    simp [hok.1, hok.2]
  refine ⟨?_, ?_, ?_⟩
  · rcases hsrc with h | h <;> simp [sendMessage, hs, h]
  · intro answer
    simp [createMessageElement, formatTextJS]
  · intro content sources
    exact createMessageElement_user content sources

theorem no_sources_no_section_witness :
    sendMessage "Tell me about pyramids".toList
        (.response 200 (some { answer := some "Pyramids...".toList, sources := none }))
      = .ok { answer := some "Pyramids...".toList, sources := [] } ∧
    sendMessage "Tell me about pyramids".toList
        (.response 200 (some { answer := some "Pyramids...".toList, sources := some [] }))
      = .ok { answer := some "Pyramids...".toList, sources := [] } :=
  ⟨(no_sources_no_section _ 200 { answer := some "Pyramids...".toList, sources := none }
      (by decide) (Or.inl rfl)).1,
   (no_sources_no_section _ 200 { answer := some "Pyramids...".toList, sources := some [] }
      (by decide) (Or.inr rfl)).1⟩

/-! ## Lemmas on the toggle, the error message and the theme -/

theorem viewLabel_ne_hide (n : Nat) : viewLabel n ≠ "Hide Sources".toList := by
  intro h
  have h1 : some 'V' = some 'H' := congrArg List.head? h
  exact absurd h1 (by decide)

/-- The handler on a button that holds its `i` element: it runs to its end, flips
the list and sets the matching label. -/
theorem toggleClick_step (n : Nat) (s : SourceSection) (hI : s.hasIcon = true)
    (hc : s.count = n)
    (h : (s.listHidden = true ∧ s.label = viewLabel n) ∨
         (s.listHidden = false ∧ s.label = "Hide Sources".toList)) :
    (toggleClick s).2 = .ok () ∧ (toggleClick s).1.hasIcon = true ∧
    (toggleClick s).1.count = n ∧ (toggleClick s).1.cards = s.cards ∧
    (toggleClick s).1.listHidden = !s.listHidden ∧
    ((toggleClick s).1.listHidden = true ∧ (toggleClick s).1.label = viewLabel n ∨
     (toggleClick s).1.listHidden = false ∧ (toggleClick s).1.label = "Hide Sources".toList) := by
  rcases h with ⟨hh, _⟩ | ⟨hh, _⟩
  · simp [toggleClick, hh, hI, hc]
  · simp [toggleClick, hh, hI, hc]

theorem clickTimes_inv (n : Nat) (sec : SourceSection) (hI : sec.hasIcon = true)
    (hc : sec.count = n) (hh : sec.listHidden = true) (hl : sec.label = viewLabel n) :
    ∀ k, (clickTimes k sec).hasIcon = true ∧ (clickTimes k sec).count = n ∧
      (clickTimes k sec).cards = sec.cards ∧
      ((clickTimes k sec).listHidden = true ∧ (clickTimes k sec).label = viewLabel n ∨
       (clickTimes k sec).listHidden = false ∧
         (clickTimes k sec).label = "Hide Sources".toList) := by
  intro k
  induction k with
  | zero => exact ⟨hI, hc, rfl, Or.inl ⟨hh, hl⟩⟩
  | succ k ih =>
    obtain ⟨i1, i2, i3, i4⟩ := ih
    obtain ⟨_, t2, t3, t4, _, t6⟩ := toggleClick_step n (clickTimes k sec) i1 i2 i4
    exact ⟨t2, t3, t4.trans i3, t6⟩

/-- Clicks on a button that keeps its `i` element: the label is `Hide Sources`
exactly when the list is shown. -/
theorem clickTimes_label (n : Nat) (sec : SourceSection) (hI : sec.hasIcon = true)
    (hc : sec.count = n) (hh : sec.listHidden = true) (hl : sec.label = viewLabel n) (k : Nat) :
    (toggleClick (clickTimes k sec)).2 = .ok () ∧
    (clickTimes (k + 1) sec).listHidden = !(clickTimes k sec).listHidden ∧
    ((clickTimes k sec).listHidden = false ↔
      (clickTimes k sec).label = "Hide Sources".toList) ∧
    ((clickTimes k sec).listHidden = true ↔ (clickTimes k sec).label = viewLabel n) ∧
    (clickTimes (k + 2) sec).listHidden = (clickTimes k sec).listHidden ∧
    (clickTimes (k + 2) sec).label = (clickTimes k sec).label := by
  have inv := clickTimes_inv n sec hI hc hh hl
  obtain ⟨i1, i2, _, i4⟩ := inv k
  obtain ⟨j1, j2, _, j4⟩ := inv (k + 1)
  obtain ⟨_, _, _, l4⟩ := inv (k + 2)
  obtain ⟨t1, _, _, _, t5, _⟩ := toggleClick_step n (clickTimes k sec) i1 i2 i4
  obtain ⟨_, _, _, _, u5, _⟩ := toggleClick_step n (clickTimes (k + 1) sec) j1 j2 j4
  have hflip1 : (clickTimes (k + 1) sec).listHidden = !(clickTimes k sec).listHidden := t5
  have hflip2 : (clickTimes (k + 2) sec).listHidden = !(clickTimes (k + 1) sec).listHidden := u5
  have hback : (clickTimes (k + 2) sec).listHidden = (clickTimes k sec).listHidden := by
    rw [hflip2, hflip1, Bool.not_not]
  have hv := viewLabel_ne_hide n
  refine ⟨t1, hflip1, ?_, ?_, hback, ?_⟩
  · rcases i4 with ⟨a, b⟩ | ⟨a, b⟩
    · constructor
      · intro h; rw [a] at h; exact absurd h (by simp)
      · intro h; rw [b] at h; exact absurd h hv
    · exact ⟨fun _ => b, fun _ => a⟩
  · rcases i4 with ⟨a, b⟩ | ⟨a, b⟩
    · exact ⟨fun _ => b, fun _ => a⟩
    · constructor
      · intro h; rw [a] at h; exact absurd h (by simp)
      · intro h; rw [b] at h; exact absurd h.symm hv
  · rcases i4 with ⟨a, b⟩ | ⟨a, b⟩ <;> rcases l4 with ⟨c, d⟩ | ⟨c, d⟩
    · rw [b, d]
    · rw [hback, a] at c; exact absurd c (by simp)
    · rw [hback, a] at c; exact absurd c (by simp)
    · rw [b, d]

theorem clickTimes_without_icon (sec : SourceSection) (h : sec.hasIcon = false) :
    ∀ k, (clickTimes k sec).hasIcon = false ∧ (clickTimes k sec).label = sec.label ∧
      (toggleClick (clickTimes k sec)).2 = .error .typeError ∧
      (clickTimes (k + 1) sec).listHidden = !(clickTimes k sec).listHidden := by
  have step : ∀ s : SourceSection, s.hasIcon = false →
      (toggleClick s).1.hasIcon = false ∧ (toggleClick s).1.label = s.label ∧
      (toggleClick s).2 = .error .typeError ∧ (toggleClick s).1.listHidden = !s.listHidden := by
    intro s hs
    cases hh : s.listHidden <;> simp [toggleClick, hh, hs]
  intro k
  induction k with
  | zero =>
    obtain ⟨_, _, s3, s4⟩ := step sec h
    exact ⟨h, rfl, s3, s4⟩
  | succ k ih =>
    obtain ⟨i1, i2, _, _⟩ := ih
    obtain ⟨s1, s2, _, _⟩ := step (clickTimes k sec) i1
    have j1 : (clickTimes (k + 1) sec).hasIcon = false := s1
    have j2 : (clickTimes (k + 1) sec).label = sec.label := s2.trans i2
    obtain ⟨_, _, t3, t4⟩ := step (clickTimes (k + 1) sec) j1
    exact ⟨j1, j2, t3, t4⟩

/-- The source section of any assistant bubble with sources, as the page shows it:
whatever the number of clicks, the label stays `View N Sources` and never
reads `Hide Sources`, while the list is shown and hidden in turn. -/
theorem shownSection_label (answer : JSString) (sources : List Source) (hne : sources ≠ []) :
    ∃ sec, shownSection answer sources = some sec ∧ sec.listHidden = true ∧
      ∀ k, (clickTimes k sec).label = viewLabel sources.length ∧
        (clickTimes k sec).label ≠ "Hide Sources".toList ∧
        (toggleClick (clickTimes k sec)).2 = .error .typeError ∧
        (clickTimes (k + 1) sec).listHidden = !(clickTimes k sec).listHidden := by
  have hpos : sources.length > 0 := List.length_pos.mpr hne
  obtain ⟨built, hbuilt⟩ : ∃ built : SourceSection, built =
      { label := viewLabel sources.length, listHidden := true, hasIcon := true,
        iconRotation := none, count := sources.length, cards := sources.map cardHtml } :=
    ⟨_, rfl⟩
  refine ⟨createIcons built, ?_, ?_, ?_⟩
  · rw [hbuilt]
    simp [shownSection, createMessageElement, formatTextJS, hpos]
  · rw [hbuilt]; rfl
  · intro k
    obtain ⟨_, h2, h3, h4⟩ := clickTimes_without_icon (createIcons built) rfl k
    have hl : (clickTimes k (createIcons built)).label = viewLabel sources.length := by
      rw [h2, hbuilt]; rfl
    exact ⟨hl, by rw [hl]; exact viewLabel_ne_hide _, h3, h4⟩

/-- C11, at the failing input. The answer `Pyramids...` arrives with the one source
`Book of the Dead`; `handleSend` builds the bubble and runs
`lucide.createIcons()`. The section starts collapsed with the label
`View 1 Sources`. The first click shows the list, then the handler throws a
`TypeError` at `icon.style`, and the label still reads `View 1 Sources`, not
`Hide Sources`; a second click hides the list again, with the same error. -/
theorem toggle_label_stuck :
    ∃ sec, shownSection "Pyramids...".toList
        [{ text := "Book of the Dead".toList, author := some "Anon".toList,
           page := some (JSNumber.ofSafe 12) }] = some sec ∧
      sec.listHidden = true ∧ sec.label = "View 1 Sources".toList ∧
      (toggleClick sec).2 = .error .typeError ∧
      (clickTimes 1 sec).listHidden = false ∧
      (clickTimes 1 sec).label = "View 1 Sources".toList ∧
      (clickTimes 1 sec).label ≠ "Hide Sources".toList ∧
      (toggleClick (clickTimes 1 sec)).2 = .error .typeError ∧
      (clickTimes 2 sec).listHidden = true ∧
      (clickTimes 2 sec).label = "View 1 Sources".toList :=
  ⟨_, rfl, rfl, rfl, rfl, rfl, rfl, by decide, rfl, rfl, rfl⟩

/-- The handler on a button that holds no `i` element: the list is shown or hidden,
the handler throws, and the label stays as it was. -/
theorem toggleClick_without_icon (sec : SourceSection) (h : sec.hasIcon = false) :
    toggleClick sec = ({ sec with listHidden := !sec.listHidden }, .error .typeError) := by
  cases hh : sec.listHidden <;> simp [toggleClick, hh, h]

theorem digitValue_digitChar (m : Nat) (h : m < 10) : digitValue (Nat.digitChar m) = m := by
  interval_cases m <;> rfl

theorem readDecimal_core (fuel : Nat) :
    ∀ (n : Nat) (ds : List Char), n < fuel →
      (Nat.toDigitsCore 10 fuel n ds).foldl (fun acc c => acc * 10 + digitValue c) 0
        = ds.foldl (fun acc c => acc * 10 + digitValue c) n := by
  induction fuel with
  | zero => intro n ds h; exact absurd h (Nat.not_lt_zero n)
  | succ fuel ih =>
    intro n ds h
    have hd : digitValue (Nat.digitChar (n % 10)) = n % 10 :=
      digitValue_digitChar _ (Nat.mod_lt _ (by decide))
    unfold Nat.toDigitsCore
    simp only
    split
    · rename_i h0
      have hn : n % 10 = n := by omega
      simp only [List.foldl_cons, Nat.zero_mul, Nat.zero_add, hd]
      rw [hn]
    · rename_i h0
      have hlt : n / 10 < fuel := by omega
      rw [ih (n / 10) _ hlt]
      have hn : n / 10 * 10 + n % 10 = n := by omega
      simp only [List.foldl_cons, hd]
      rw [hn]

theorem readDecimal_repr (n : Nat) : readDecimal (Nat.repr n).toList = n := by
  have h : (Nat.repr n).toList = Nat.toDigitsCore 10 (n + 1) n [] := rfl
  unfold readDecimal
  rw [h, readDecimal_core (n + 1) n [] (Nat.lt_succ_self n)]
  rfl

theorem statusOfMessage_httpErrorMessage (status : Nat) :
    statusOfMessage (httpErrorMessage status) = some status := by
  unfold statusOfMessage httpErrorMessage
  have hp : "HTTP error! status: ".toList.isPrefixOf
      ("HTTP error! status: ".toList ++ (Nat.repr status).toList) = true :=
    List.isPrefixOf_iff_prefix.mpr (List.prefix_append _ _)
  rw [if_pos hp, List.drop_left, readDecimal_repr]

/-- C12. When the response to `POST /chat` has a status outside 200-299,
`sendMessage` rejects with the error `HTTP error! status: N`, whose message
carries the status code `N` of the response; it resolves with no answer; it has
made the one request and no other; and `handleSend`, which catches the error,
issues no further call either. -/
theorem sendMessage_rejects (message : JSString) (net : Nat → FetchResult ChatData)
    (status : Nat) (body : Option ChatData)
    (hres : net 0 = .response status body) (hs : nonSuccess status) :
    (sendMessageRun message net).1 = .error (.error (httpErrorMessage status)) ∧
    httpErrorMessage status = "HTTP error! status: ".toList ++ (Nat.repr status).toList ∧
    statusOfMessage (httpErrorMessage status) = some status ∧
    (∀ answer, (sendMessageRun message net).1 ≠ .ok answer) ∧
    (sendMessageRun message net).2 = [chatRequest message] ∧
    (∀ (s : Controller) (p : PendingSend),
      (handleSendResume s p (sendMessageRun message net).1).2 = .ok none) := by
  have h1 : (sendMessageRun message net).1 = .error (.error (httpErrorMessage status)) := by
    simp [sendMessageRun, hres, sendMessage, statusOk_of_nonSuccess status hs]
  refine ⟨h1, rfl, statusOfMessage_httpErrorMessage status, ?_, rfl, ?_⟩
  · intro answer h
    rw [h1] at h
    exact absurd h (by simp)
  · intro s p
    rw [h1]
    simp only [handleSendResume, handleSendTry, handleSendCatch_eq]

theorem sendMessage_rejects_witness :
    (sendMessageRun "Tell me about pyramids".toList (fun _ => .response 404 none)).1
      = .error (.error "HTTP error! status: 404".toList) ∧
    statusOfMessage "HTTP error! status: 404".toList = some 404 :=
  ⟨(sendMessage_rejects "Tell me about pyramids".toList (fun _ => .response 404 none) 404 none
      rfl (by decide)).1,
   (sendMessage_rejects "Tell me about pyramids".toList (fun _ => .response 404 none) 404 none
      rfl (by decide)).2.2.1⟩

theorem updateThemeIcon_fields (t : ThemeState) (theme : JSString) :
    (updateThemeIcon t theme).dataTheme = t.dataTheme ∧
    (updateThemeIcon t theme).stored = t.stored := by
  unfold updateThemeIcon
  split <;> exact ⟨rfl, rfl⟩

theorem toggleTheme_fields (t : ThemeState) :
    (toggleTheme t).dataTheme
      = some (if t.dataTheme = some "light".toList then "dark".toList else "light".toList) ∧
    (toggleTheme t).stored
      = some (if t.dataTheme = some "light".toList then "dark".toList else "light".toList) := by
  unfold toggleTheme
  exact updateThemeIcon_fields _ _

theorem initializeTheme_fields (t : ThemeState) :
    (initializeTheme t).dataTheme
      = some (match t.stored with
              | some v => if truthy v then v else "light".toList
              | none => "light".toList) ∧
    (initializeTheme t).stored = t.stored := by
  unfold initializeTheme
  exact updateThemeIcon_fields _ _

/-- C13, as the code has it. When the persisted preference is absent, `light` or
`dark`, then after `initializeTheme` two calls of `toggleTheme` leave the
displayed theme equal to the one shown after initialisation, and the persisted
preference equal to that theme, which is the original preference when there
was one and the default `light` when it was absent. After any `toggleTheme`,
from any state, the persisted preference equals the displayed theme, and an
`initializeTheme` run on that persisted preference displays the same theme. -/
theorem theme_toggle_twice (t : ThemeState)
    (hpref : t.stored = none ∨ t.stored = some "light".toList ∨ t.stored = some "dark".toList) :
    (toggleTheme (toggleTheme (initializeTheme t))).dataTheme = (initializeTheme t).dataTheme ∧
    (toggleTheme (toggleTheme (initializeTheme t))).stored = (initializeTheme t).dataTheme ∧
    (t.stored ≠ none → (toggleTheme (toggleTheme (initializeTheme t))).stored = t.stored) ∧
    (t.stored = none → (initializeTheme t).dataTheme = some "light".toList) ∧
    (∀ u : ThemeState, (toggleTheme u).stored = (toggleTheme u).dataTheme ∧
      ∀ v : ThemeState, v.stored = (toggleTheme u).stored →
        (initializeTheme v).dataTheme = (toggleTheme u).dataTheme) := by
  have hd : (some "dark".toList : Option JSString) ≠ some "light".toList := by decide
  have key : (toggleTheme (toggleTheme (initializeTheme t))).dataTheme
        = (initializeTheme t).dataTheme ∧
      (toggleTheme (toggleTheme (initializeTheme t))).stored = (initializeTheme t).dataTheme := by
    rw [(toggleTheme_fields _).1, (toggleTheme_fields _).2, (toggleTheme_fields _).1,
      (initializeTheme_fields t).1]
    rcases hpref with h | h | h <;> rw [h] <;> decide
  refine ⟨key.1, key.2, ?_, ?_, ?_⟩
  · intro hne
    rw [key.2, (initializeTheme_fields t).1]
    rcases hpref with h | h | h
    · exact absurd h hne
    · rw [h]; decide
    · rw [h]; decide
  · intro h
    rw [(initializeTheme_fields t).1, h]
  · intro u
    refine ⟨by rw [(toggleTheme_fields u).1, (toggleTheme_fields u).2], ?_⟩
    intro v hv
    rw [(initializeTheme_fields v).1, hv, (toggleTheme_fields u).1, (toggleTheme_fields u).2]
    by_cases hl : u.dataTheme = some "light".toList
    · rw [if_pos hl]; decide
    · rw [if_neg hl]; decide

theorem theme_toggle_twice_witness :
    (toggleTheme (toggleTheme (initializeTheme
        { dataTheme := none, stored := some "dark".toList, icon := some "moon".toList }))).dataTheme
      = some "dark".toList ∧
    (toggleTheme (toggleTheme (initializeTheme
        { dataTheme := none, stored := some "dark".toList, icon := some "moon".toList }))).stored
      = some "dark".toList :=
  ⟨(theme_toggle_twice
      { dataTheme := none, stored := some "dark".toList, icon := some "moon".toList }
      (Or.inr (Or.inr rfl))).1,
   (theme_toggle_twice
      { dataTheme := none, stored := some "dark".toList, icon := some "moon".toList }
      (Or.inr (Or.inr rfl))).2.1⟩

/-- C13, as stated, fails: with the stored value `blue`, `initializeTheme` displays
`blue`, the first `toggleTheme` gives `light` and the second `dark`; neither the
displayed theme nor the persisted preference is `blue` again. -/
theorem blue_theme_not_restored :
    (initializeTheme
        { dataTheme := none, stored := some "blue".toList, icon := some "moon".toList }).dataTheme
      = some "blue".toList ∧
    (toggleTheme (toggleTheme (initializeTheme
        { dataTheme := none, stored := some "blue".toList, icon := some "moon".toList }))).dataTheme
      = some "dark".toList ∧
    (toggleTheme (toggleTheme (initializeTheme
        { dataTheme := none, stored := some "blue".toList, icon := some "moon".toList }))).stored
      = some "dark".toList ∧
    (some "dark".toList : Option JSString) ≠ some "blue".toList := by
  decide

end Chronos
